import Mathlib

/-!
Verification of the a911client library (Active911 dispatch-alert client).

The development shallowly embeds the Python sources:
  * `Active911Xmpp._on_message`   — colon-delimited command parsing and dispatch;
  * `Active911Xmpp.try_reconnect`, `_on_disconnected`, `_on_session_start`
                                   — the reconnect/backoff state machine;
  * `Active911Client.post_request`, `register_device`, `authenticate`
                                   — the HTTP gateway and its error wrapping;
  * `Active911Alert`               — the alert dataclass, `__post_init__`
                                     normalization, and the JSON (de)serialization
                                     round trip (with an executable model of the
                                     Python `json` standard library).

Python values are modeled by the dynamic type `PyVal`, Python exceptions by
`PyExc`.  Machine floats are modeled by their decimal literal (`repr`) string,
which is exactly what the `json` module reads and writes for them.
-/

/-! ### Python string primitives (modeled on `List Char`, structural recursion) -/

/-- Whitespace for Python `str.split()` / `str.strip()` (ASCII whitespace set). -/
def pyIsSpace (c : Char) : Bool :=
  c = ' ' || c = '\t' || c = '\n' || c = '\r' || c = '\x0b' || c = '\x0c'

/-- `str.strip()` on a character list: drop leading and trailing whitespace. -/
def pyStripChars (l : List Char) : List Char :=
  ((l.dropWhile pyIsSpace).reverse.dropWhile pyIsSpace).reverse

/-- Python `str.strip()`. -/
def pyStrip (s : String) : String := ⟨pyStripChars s.data⟩

/-- Auxiliary for `str.split(sep)` with a one-character separator. -/
def splitSepAux (sep : Char) : List Char → List Char → List String
  | [], acc => [⟨acc.reverse⟩]
  | c :: cs, acc =>
      if c = sep then ⟨acc.reverse⟩ :: splitSepAux sep cs []
      else splitSepAux sep cs (c :: acc)

/-- Python `str.split(sep)` for a one-character separator (keeps empty pieces,
never returns an empty list — `"".split(':') == [""]`). -/
def pySplitSep (sep : Char) (s : String) : List String := splitSepAux sep s.data []

/-- Auxiliary for no-argument `str.split()`: split on whitespace runs,
discarding empty pieces. -/
def splitWSAux : List Char → List Char → List String
  | [], acc => if acc.isEmpty then [] else [⟨acc.reverse⟩]
  | c :: cs, acc =>
      if pyIsSpace c then
        if acc.isEmpty then splitWSAux cs [] else ⟨acc.reverse⟩ :: splitWSAux cs []
      else splitWSAux cs (c :: acc)

/-- Python no-argument `str.split()`. -/
def pySplitWS (s : String) : List String := splitWSAux s.data []

/-! ### Python dynamic values and exceptions -/

/-- A dynamic Python value as used by the library: JSON scalars and containers,
plus `PageGroup` dataclass instances.  A float is carried as its decimal
literal, the form in which the `json` module reads and writes it. -/
inductive PyVal where
  | none
  | bool (b : Bool)
  | int (n : Int)
  | float (lit : String)
  | str (s : String)
  | list (xs : List PyVal)
  | dict (xs : List (String × PyVal))
  | pgObj (pgid : PyVal)

mutual

/-- Python `==` on dynamic values (structural equality). -/
def PyVal.beq : PyVal → PyVal → Bool
  | .none, .none => true
  | .bool a, .bool b => a = b
  | .int a, .int b => a = b
  | .float a, .float b => a = b
  | .str a, .str b => a = b
  | .list xs, .list ys => beqValList xs ys
  | .dict xs, .dict ys => beqValDict xs ys
  | .pgObj a, .pgObj b => PyVal.beq a b
  | _, _ => false

/-- `PyVal.beq`, list case. -/
def beqValList : List PyVal → List PyVal → Bool
  | [], [] => true
  | x :: xs, y :: ys => PyVal.beq x y && beqValList xs ys
  | _, _ => false

/-- `PyVal.beq`, dict case. -/
def beqValDict : List (String × PyVal) → List (String × PyVal) → Bool
  | [], [] => true
  | (k, v) :: xs, (l, w) :: ys => k = l && PyVal.beq v w && beqValDict xs ys
  | _, _ => false

end

/-- The Python exceptions the embedded code can raise, including the library's
own `Active911Error` hierarchy (`connError` < `Active911ConnectionError`,
`authError` < `Active911AuthenticationError`, `apiError` < plain
`Active911Error`). -/
inductive PyExc where
  | indexError
  | keyError (k : String)
  | typeError (m : String)
  | attributeError (m : String)
  | jsonDecodeError
  | transportError (m : String)
  | runtimeError (m : String)
  | authError (m : String)
  | apiError (m : PyVal)
  | connError (m : String)

/-- Rough model of Python `str(e)` on an exception, used only to build the
wrapper messages of `Active911ConnectionError`. -/
def excStr : PyExc → String
  | .indexError => "list index out of range"
  | .keyError k => k
  | .typeError m => m
  | .attributeError m => m
  | .jsonDecodeError => "Expecting value"
  | .transportError m => m
  | .runtimeError m => m
  | .authError m => m
  | .apiError _ => "API Error"
  | .connError m => m

/-- `l[i]` on a Python list: `IndexError` when out of range (negative indices
are not used by the embedded code). -/
def pyListGet (l : List α) (i : Nat) : Except PyExc α :=
  match l.get? i with
  | some x => .ok x
  | Option.none => .error .indexError

/-- Assoc-list lookup modelling a Python `dict` read. -/
def pyLookup (xs : List (String × PyVal)) (k : String) : Option PyVal :=
  match xs.find? (fun kv => kv.1 = k) with
  | some kv => some kv.2
  | Option.none => Option.none

/-- `d[k]` subscription: `KeyError` on a missing key, `TypeError` when the
value is not a dict. -/
def pyGetItem (v : PyVal) (k : String) : Except PyExc PyVal :=
  match v with
  | .dict xs =>
      match pyLookup xs k with
      | some x => .ok x
      | Option.none => .error (.keyError k)
  | _ => .error (.typeError "object is not subscriptable")

/-- `d.get(k, default)`: only dicts have a `.get` attribute; every other value
(`None` included) raises `AttributeError`. -/
def pyGetDefault (v : PyVal) (k : String) (dflt : PyVal) : Except PyExc PyVal :=
  match v with
  | .dict xs => .ok ((pyLookup xs k).getD dflt)
  | _ => .error (.attributeError "no attribute get")

/-- Python truthiness of a value. -/
def pyTruthy : PyVal → Bool
  | .none => false
  | .bool b => b
  | .int n => n ≠ 0
  | .float lit => !(lit = "0.0" || lit = "-0.0" || lit = "0" || lit = "-0")
  | .str s => s ≠ ""
  | .list xs => !xs.isEmpty
  | .dict xs => !xs.isEmpty
  | .pgObj _ => true

/-! ### `Active911Xmpp._on_message`: the colon-delimited command parser -/

/-- Which optional callbacks are registered on the client
(`hasattr(self, '..._handler')`). -/
structure Handlers where
  assignmentH : Bool
  messageH : Bool
  responseH : Bool
  popupH : Bool
  unknownH : Bool
deriving DecidableEq, Repr

/-- All callbacks registered. -/
def allHandlers : Handlers := ⟨true, true, true, true, true⟩

/-- Observable outcome of one `_on_message` invocation. -/
inductive MsgOutcome where
  /-- A registered handler was awaited with the given `message_data` dict. -/
  | dispatched (handler : String) (data : List (String × String))
  /-- A known command was parsed but its handler is not registered. -/
  | notDispatched (data : List (String × String))
  /-- Unknown command without a handler: logged at debug level. -/
  | unknownLogged (command : String)
  /-- An exception inside the `try` block, caught and logged at error level. -/
  | caught (e : PyExc)
  /-- Message type is neither `chat` nor `normal`: logged at debug level. -/
  | ignoredType

/-- The body of `_on_message` after splitting on `':'`: select the command from
token 0 and read the per-kind positional fields (building the dict literal
evaluates every index in order, so a missing token raises `IndexError`). -/
def onMessageComponents (h : Handlers) (cs : List String) : MsgOutcome :=
  match (do
    let command ← pyListGet cs 0
    if command = "assignment" then do
      let d ← pyListGet cs 1
      let ag ← pyListGet cs 2
      let asg ← pyListGet cs 3
      let data := [("command", command), ("device_id", d), ("agency_id", ag),
                   ("assignment_id", asg)]
      pure (if h.assignmentH then MsgOutcome.dispatched "assignment_handler" data
            else .notDispatched data)
    else if command = "message" then do
      let mid ← pyListGet cs 1
      let aid ← pyListGet cs 2
      let snd ← pyListGet cs 3
      let msg ← pyListGet cs 4
      let data := [("command", command), ("message_id", mid), ("alert_id", aid),
                   ("sound", snd), ("message", msg)]
      pure (if h.messageH then MsgOutcome.dispatched "message_handler" data
            else .notDispatched data)
    else if command = "response" then do
      let d ← pyListGet cs 1
      let act ← pyListGet cs 2
      let aid ← pyListGet cs 3
      let data := [("command", command), ("device_id", d), ("action", act),
                   ("alert_id", aid)]
      pure (if h.responseH then MsgOutcome.dispatched "response_handler" data
            else .notDispatched data)
    else if command = "popup" then do
      let d ← pyListGet cs 1
      let msg ← pyListGet cs 2
      let data := [("command", command), ("device_id", d), ("message", msg)]
      pure (if h.popupH then MsgOutcome.dispatched "popup_handler" data
            else .notDispatched data)
    else
      pure (if h.unknownH then
              MsgOutcome.dispatched "unknown_command_handler" [("command", command)]
            else .unknownLogged command) : Except PyExc MsgOutcome) with
  | .ok o => o
  | .error e => .caught e

/-- `Active911Xmpp._on_message`: only `chat`/`normal` messages are parsed; the
whole parse-and-dispatch block is wrapped in a `try` whose `except Exception`
logs and swallows. -/
def on_message (h : Handlers) (msgType body : String) : MsgOutcome :=
  if msgType = "chat" || msgType = "normal" then
    onMessageComponents h (pySplitSep ':' body)
  else .ignoredType

/-- Number of colon-separated components each known command kind reads
(command token included). -/
def requiredComponents (cmd : String) : Option Nat :=
  if cmd = "assignment" then some 4
  else if cmd = "message" then some 5
  else if cmd = "response" then some 4
  else if cmd = "popup" then some 3
  else Option.none

/-! ### `Active911Xmpp` reconnect state machine
(`try_reconnect`, `_on_disconnected`, `_on_session_start`, `_on_connected`) -/

/-- The settings `try_reconnect` reads (`max_reconnect_attempts`,
`reconnect_delay`). -/
structure XmppSettings where
  max_reconnect_attempts : Nat
  reconnect_delay : Nat
deriving DecidableEq, Repr

/-- Mutable connection state: `self.connected` and `self.reconnect_attempts`. -/
structure XmppState where
  connected : Bool
  reconnect_attempts : Nat
deriving DecidableEq, Repr

/-- Observable actions of the supervisor, in execution order. -/
inductive XAct where
  /-- One invocation of `try_reconnect` (the counter increment at its entry). -/
  | reconnectEnter
  /-- `asyncio.sleep(secs)` before a retry. -/
  | sleep (secs : Nat)
  /-- A raw `self.connect(...)` call. -/
  | connectCall
  /-- An awaited `self.error_handler(msg)` invocation. -/
  | errorHandlerCall (msg : String)
  /-- The awaited `self.disconnected_handler()` invocation. -/
  | discHandlerCall
  /-- The awaited `self.connected_handler()` invocation. -/
  | connHandlerCall
  /-- `_on_session_start`: presence sent and keepalive enabled. -/
  | sessionStarted
deriving DecidableEq, Repr

/-- `Active911Xmpp.try_reconnect`.  `oracle` supplies the outcome of each raw
`connect` call made during this invocation chain (`true` = the call returns,
`false` = it raises); a call beyond the end of the oracle returns normally.
Recursion is on the oracle: the recursive call after a failed connect consumes
that call's oracle entry. -/
def try_reconnect (s : XmppSettings) : Nat → List Bool → Nat × List XAct
  | a, [] =>
      if s.max_reconnect_attempts < a + 1 then
        (a + 1, [.reconnectEnter, .errorHandlerCall "Max reconnect attempts reached"])
      else
        (a + 1, [.reconnectEnter, .sleep (s.reconnect_delay * (a + 1)), .connectCall])
  | a, b :: rest =>
      if s.max_reconnect_attempts < a + 1 then
        (a + 1, [.reconnectEnter, .errorHandlerCall "Max reconnect attempts reached"])
      else if b then
        (a + 1, [.reconnectEnter, .sleep (s.reconnect_delay * (a + 1)), .connectCall])
      else
        let r := try_reconnect s (a + 1) rest
        (r.1, [.reconnectEnter, .sleep (s.reconnect_delay * (a + 1)), .connectCall,
               .errorHandlerCall "connect raised"] ++ r.2)

/-- Lifecycle events delivered by the transport library.  A disconnection
event carries the oracle for the raw connect calls its reconnect chain makes. -/
inductive XEvent where
  | disconnected (oracle : List Bool)
  | session_start
  | connectedEv
deriving DecidableEq, Repr

/-- One event-handler invocation: `_on_connected` sets the flag and awaits the
connected handler; `_on_session_start` resets the attempt counter;
`_on_disconnected` clears the flag, awaits the (fault-isolated) disconnected
handler and unconditionally runs `try_reconnect`. -/
def xmppStep (s : XmppSettings) (st : XmppState) : XEvent → XmppState × List XAct
  | .connectedEv => ({ st with connected := true }, [.connHandlerCall])
  | .session_start => ({ st with reconnect_attempts := 0 }, [.sessionStarted])
  | .disconnected oracle =>
      let r := try_reconnect s st.reconnect_attempts oracle
      ({ connected := false, reconnect_attempts := r.1 }, .discHandlerCall :: r.2)

/-- Process a sequence of lifecycle events, accumulating the action trace. -/
def xmppRun (s : XmppSettings) (st : XmppState) : List XEvent → XmppState × List XAct
  | [] => (st, [])
  | e :: es =>
      let r := xmppStep s st e
      let r' := xmppRun s r.1 es
      (r'.1, r.2 ++ r'.2)

/-! ### `Active911Client`: `post_request`, `register_device`, `authenticate` -/

/-- The client state the embedded methods touch: whether the shared
`aiohttp.ClientSession` is open, the captured credentials, and the two
status flags. -/
structure ClientState where
  sessionOpen : Bool
  device_code : String
  user_id : Option PyVal
  device_id : Option PyVal
  registration_code : Option PyVal
  is_registered : Bool
  is_authenticated : Bool

/-- The environment's behaviour for one HTTP POST: either the combined
`session.post` / `response.json()` step raises (network error, malformed
body), or it yields a decoded JSON value. -/
inductive Transport where
  | fail (msg : String)
  | json (v : PyVal)

/-- The `try` block of `Active911Client.post_request`: format the log line
(reads `data['operation']`), POST on the shared session, decode, then branch
on `result["result"]` and `result["message"]`.  Note the `raise
Active911AuthenticationError` / `raise Active911Error` statements sit inside
this same `try` block. -/
def postRequestTry (st : ClientState) (data : PyVal) (t : Transport) :
    Except PyExc PyVal := do
  let _ ← pyGetItem data "operation"
  if !st.sessionOpen then
    throw (.runtimeError "Session is closed")
  else
    match t with
    | .fail m => throw (.transportError m)
    | .json result => do
        let r ← pyGetItem result "result"
        if PyVal.beq r (.str "success") then
          pure result
        else do
          let m ← pyGetItem result "message"
          if PyVal.beq m (.str "Unauthorized") then
            throw (.authError "API Error: Unauthorized")
          else
            throw (.apiError m)

/-- `Active911Client.post_request`: any exception escaping the `try` body —
the internally raised `Active911AuthenticationError` and `Active911Error`
included — is caught by `except Exception`, the shared session is closed, and
`Active911ConnectionError` is raised instead. -/
def post_request (st : ClientState) (data : PyVal) (t : Transport) :
    ClientState × Except PyExc PyVal :=
  match postRequestTry st data t with
  | .ok v => (st, .ok v)
  | .error e =>
      ({ st with sessionOpen := false },
       .error (.connError ("Connection error: " ++ excStr e)))

/-- The request dict `register_device` posts. -/
def registerData (st : ClientState) : PyVal :=
  .dict [("operation", .str "register"), ("device_code", .str st.device_code)]

/-- `Active911Client.register_device`: posts the registration request, sets
`is_registered` on success; its own `except Exception` re-wraps any failure
as `Active911ConnectionError` once more. -/
def register_device (st : ClientState) (t : Transport) :
    ClientState × Except PyExc Unit :=
  match post_request st (registerData st) t with
  | (st', .ok _) => ({ st' with is_registered := true }, .ok ())
  | (st', .error e) =>
      (st', .error (.connError ("Connection error: " ++ excStr e)))

/-- The request dict `authenticate` posts. -/
def authData : PyVal :=
  .dict [("operation", .str "init"),
         ("client_version", .str "WebView vclient_version"),
         ("limit_to_five_responses", .int 0)]

/-- `Active911Client.authenticate`: posts the init request; on success walks
`data.get("message", {}).get("device", {}).get("info")`; when that value is
truthy, captures `user_id` / `device_id` / `registration_code` and sets
`is_authenticated`.  Any exception (from `post_request` or from the `.get`
chain) is re-wrapped as `Active911ConnectionError`. -/
def authenticate (st : ClientState) (t : Transport) :
    ClientState × Except PyExc Unit :=
  match post_request st authData t with
  | (st1, .error e) =>
      (st1, .error (.connError ("Connection error: " ++ excStr e)))
  | (st1, .ok data) =>
      match (do
        let m ← pyGetDefault data "message" (.dict [])
        let d ← pyGetDefault m "device" (.dict [])
        let info ← pyGetDefault d "info" .none
        if pyTruthy info then do
          let u ← pyGetItem info "user_id"
          let dev ← pyGetItem info "device_id"
          let rc ← pyGetItem info "registration_code"
          pure (some (u, dev, rc))
        else
          pure Option.none : Except PyExc (Option (PyVal × PyVal × PyVal))) with
      | .error e =>
          (st1, .error (.connError ("Connection error: " ++ excStr e)))
      | .ok Option.none => (st1, .ok ())
      | .ok (some (u, dev, rc)) =>
          ({ st1 with user_id := some u, device_id := some dev,
                      registration_code := some rc, is_authenticated := true },
           .ok ())

/-- Is the outcome a raised `Active911ConnectionError`? -/
def isConnError : Except PyExc PyVal → Bool
  | .error (.connError _) => true
  | _ => false

/-- Is the outcome a raised `Active911AuthenticationError`? -/
def isAuthError : Except PyExc PyVal → Bool
  | .error (.authError _) => true
  | _ => false

/-- Is the outcome a raised plain `Active911Error` (generic API error)? -/
def isApiError : Except PyExc PyVal → Bool
  | .error (.apiError _) => true
  | _ => false

/-- Same classifiers for `Unit`-valued results. -/
def isConnErrorU : Except PyExc Unit → Bool
  | .error (.connError _) => true
  | _ => false

/-- Raised `Active911AuthenticationError`, `Unit`-valued results. -/
def isAuthErrorU : Except PyExc Unit → Bool
  | .error (.authError _) => true
  | _ => false

/-- Raised plain `Active911Error`, `Unit`-valued results. -/
def isApiErrorU : Except PyExc Unit → Bool
  | .error (.apiError _) => true
  | _ => false

/-- Did the call return normally? -/
def isOkU : Except PyExc Unit → Bool
  | .ok _ => true
  | _ => false

/-- Did the call return normally (value-producing calls)? -/
def isOkV : Except PyExc PyVal → Bool
  | .ok _ => true
  | _ => false

/-! ### Model of the Python `json` standard library

`json.dumps` with its default options (`", "` / `": "` separators) and
`json.loads`.  Escaping of non-ASCII characters (`ensure_ascii`) is the
identity here; this does not affect any observable the claims mention.
The parser accepts a superset of strict JSON on inputs the printer never
produces (leading zeros, unchecked `\\u` hex digits); on printer output it is
exact, which is what the round-trip proofs use. -/

/-- Decimal digit characters. -/
def isDigitB (c : Char) : Bool := 48 ≤ c.toNat && c.toNat ≤ 57

/-- The `k`-th decimal digit character, `k < 10`. -/
def digitChar : Nat → Char
  | 0 => '0' | 1 => '1' | 2 => '2' | 3 => '3' | 4 => '4'
  | 5 => '5' | 6 => '6' | 7 => '7' | 8 => '8' | 9 => '9'
  | _ => '*'

/-- Numeric value of a decimal digit character. -/
def digitVal (c : Char) : Nat := c.toNat - 48

/-- Lowercase hex digit characters (as `json.dumps` emits in `\u00XX`). -/
def hexChar : Nat → Char
  | 0 => '0' | 1 => '1' | 2 => '2' | 3 => '3' | 4 => '4'
  | 5 => '5' | 6 => '6' | 7 => '7' | 8 => '8' | 9 => '9'
  | 10 => 'a' | 11 => 'b' | 12 => 'c' | 13 => 'd' | 14 => 'e' | 15 => 'f'
  | _ => '*'

/-- Numeric value of a hex digit character (junk on non-hex input, which the
printer never produces). -/
def hexVal (c : Char) : Nat :=
  if 48 ≤ c.toNat && c.toNat ≤ 57 then c.toNat - 48
  else if 97 ≤ c.toNat && c.toNat ≤ 102 then c.toNat - 87
  else if 65 ≤ c.toNat && c.toNat ≤ 70 then c.toNat - 55
  else 0

/-- Decimal expansion of a natural number (fuel-based so it reduces in the
kernel; `natChars` supplies sufficient fuel). -/
def natCharsAux : Nat → Nat → List Char
  | 0, _ => []
  | fuel + 1, n =>
      if n < 10 then [digitChar n]
      else natCharsAux fuel (n / 10) ++ [digitChar (n % 10)]

/-- Decimal expansion of a natural number. -/
def natChars (n : Nat) : List Char := natCharsAux (n + 1) n

/-- Decimal expansion of an integer, as `json.dumps` prints Python ints. -/
def intChars (n : Int) : List Char :=
  if n < 0 then '-' :: natChars n.natAbs else natChars n.natAbs

/-- Value of a decimal digit string. -/
def parseDigits (l : List Char) : Nat := l.foldl (fun n c => n * 10 + digitVal c) 0

/-- Characters that may occur in a JSON number token. -/
def numChar (c : Char) : Bool :=
  isDigitB c || c = '-' || c = '+' || c = '.' || c = 'e' || c = 'E'

/-- Non-empty all-digit strings. -/
def allDigits1 (l : List Char) : Bool := !l.isEmpty && l.all isDigitB

/-- Does a number token denote a Python int (no fraction, no exponent)? -/
def tokenIsInt : List Char → Bool
  | [] => false
  | c :: r => if c = '-' then allDigits1 r else allDigits1 (c :: r)

/-- Integer value of an int token. -/
def intOfTok : List Char → Int
  | [] => 0
  | c :: r => if c = '-' then -(parseDigits r : Int) else (parseDigits (c :: r) : Int)

/-- Exponent part after `e`/`E`: optional sign then at least one digit. -/
def isExpTail : List Char → Bool
  | [] => false
  | c :: r => if c = '+' || c = '-' then allDigits1 r else allDigits1 (c :: r)

/-- After the fraction digits: nothing more, or an exponent. -/
def floatFracExp : List Char → Bool
  | [] => true
  | e :: r4 => if e = 'e' || e = 'E' then isExpTail r4 else false

/-- After the fraction dot: at least one digit, then optionally an exponent. -/
def floatFracTail (r2 : List Char) : Bool :=
  if (r2.takeWhile isDigitB).isEmpty then false
  else floatFracExp (r2.dropWhile isDigitB)

/-- After the integral digits: a fraction and/or an exponent is required
(otherwise the token is an int). -/
def floatAfterDigits : List Char → Bool
  | [] => false
  | c :: r2 =>
      if c = '.' then floatFracTail r2
      else if c = 'e' || c = 'E' then isExpTail r2
      else false

/-- Unsigned float literal: `digits ['.' digits] [('e'|'E') tail]`, with a
fraction or an exponent required (otherwise the token is an int). -/
def isFloatCore (l : List Char) : Bool :=
  if (l.takeWhile isDigitB).isEmpty then false
  else floatAfterDigits (l.dropWhile isDigitB)

/-- A well-formed float literal (the shape `repr` of a finite Python float
always has, e.g. `"0.0"`, `"1e+300"`, `"-2.5"`). -/
def isFloatLitChars : List Char → Bool
  | [] => false
  | c :: r => if c = '-' then isFloatCore r else isFloatCore (c :: r)

/-- `isFloatLitChars` on a `String`. -/
def isFloatLit (s : String) : Bool := isFloatLitChars s.data

/-- `json.dumps` escaping of one string character. -/
def escChar (c : Char) : List Char :=
  if c = '"' then ['\\', '"']
  else if c = '\\' then ['\\', '\\']
  else if c = '\n' then ['\\', 'n']
  else if c = '\t' then ['\\', 't']
  else if c = '\r' then ['\\', 'r']
  else if c = '\x08' then ['\\', 'b']
  else if c = '\x0c' then ['\\', 'f']
  else if c.toNat < 32 then
    ['\\', 'u', '0', '0', hexChar (c.toNat / 16), hexChar (c.toNat % 16)]
  else [c]

/-- `json.dumps` escaping of a string body. -/
def escList : List Char → List Char
  | [] => []
  | c :: cs => escChar c ++ escList cs

mutual

/-- `json.dumps` output characters (guarded by `hasPg` in `jsonDumps`:
`PageGroup` objects are not JSON serializable). -/
def dumpVal : PyVal → List Char
  | .none => "null".data
  | .bool true => "true".data
  | .bool false => "false".data
  | .int n => intChars n
  | .float lit => lit.data
  | .str s => '"' :: escList s.data ++ ['"']
  | .list [] => ['[', ']']
  | .list (x :: xs) => '[' :: dumpVal x ++ dumpElems xs ++ [']']
  | .dict [] => ['{', '}']
  | .dict ((k, v) :: xs) =>
      '{' :: '"' :: escList k.data ++ ['"', ':', ' '] ++ dumpVal v ++ dumpMembers xs ++ ['}']
  | .pgObj _ => []

/-- Remaining list elements, each preceded by `", "`. -/
def dumpElems : List PyVal → List Char
  | [] => []
  | x :: xs => ',' :: ' ' :: dumpVal x ++ dumpElems xs

/-- Remaining object members, each preceded by `", "`. -/
def dumpMembers : List (String × PyVal) → List Char
  | [] => []
  | (k, v) :: xs =>
      ',' :: ' ' :: '"' :: escList k.data ++ ['"', ':', ' '] ++ dumpVal v ++ dumpMembers xs

end

mutual

/-- Does the value contain a `PageGroup` object (making `json.dumps` raise
`TypeError`)? -/
def hasPg : PyVal → Bool
  | .pgObj _ => true
  | .list xs => hasPgList xs
  | .dict xs => hasPgDict xs
  | _ => false

/-- `hasPg` over list elements. -/
def hasPgList : List PyVal → Bool
  | [] => false
  | x :: xs => hasPg x || hasPgList xs

/-- `hasPg` over dict values. -/
def hasPgDict : List (String × PyVal) → Bool
  | [] => false
  | (_, v) :: xs => hasPg v || hasPgDict xs

end

mutual

/-- Serializable and well-formed for the round trip: no `PageGroup` objects
and every float literal well formed. -/
def wfSer : PyVal → Bool
  | .float lit => isFloatLit lit
  | .list xs => wfSerList xs
  | .dict xs => wfSerDict xs
  | .pgObj _ => false
  | _ => true

/-- `wfSer` over list elements. -/
def wfSerList : List PyVal → Bool
  | [] => true
  | x :: xs => wfSer x && wfSerList xs

/-- `wfSer` over dict values. -/
def wfSerDict : List (String × PyVal) → Bool
  | [] => true
  | (_, v) :: xs => wfSer v && wfSerDict xs

end

/-- `json.dumps`. -/
def jsonDumps (v : PyVal) : Except PyExc String :=
  if hasPg v then .error (.typeError "Object of type PageGroup is not JSON serializable")
  else .ok ⟨dumpVal v⟩

/-- JSON insignificant whitespace. -/
def jsonWsB (c : Char) : Bool := c = ' ' || c = '\t' || c = '\n' || c = '\r'

/-- Skip insignificant whitespace. -/
def skipWs (l : List Char) : List Char := l.dropWhile jsonWsB

/-- Strip an expected literal prefix. -/
def stripPre : List Char → List Char → Option (List Char)
  | [], l => some l
  | e :: es, c :: l => if c = e then stripPre es l else Option.none
  | _ :: _, [] => Option.none

/-- Single-character short escapes recognised by the decoder. -/
def unescChar (e : Char) : Option Char :=
  if e = '"' then some '"'
  else if e = '\\' then some '\\'
  else if e = '/' then some '/'
  else if e = 'n' then some '\n'
  else if e = 't' then some '\t'
  else if e = 'r' then some '\r'
  else if e = 'b' then some '\x08'
  else if e = 'f' then some '\x0c'
  else Option.none

/-- Decode a JSON string body (after the opening quote) up to its closing
quote; returns the decoded characters and the remaining input. -/
def parseStrBody : List Char → Except PyExc (List Char × List Char)
  | [] => .error .jsonDecodeError
  | c :: rest =>
      if c = '"' then .ok ([], rest)
      else if c = '\\' then
        match rest with
        | [] => .error .jsonDecodeError
        | e :: rest2 =>
            if e = 'u' then
              match rest2 with
              | h1 :: h2 :: h3 :: h4 :: rest3 =>
                  (parseStrBody rest3).map fun p =>
                    (Char.ofNat
                        (hexVal h1 * 4096 + hexVal h2 * 256 + hexVal h3 * 16 + hexVal h4)
                      :: p.1, p.2)
              | _ => .error .jsonDecodeError
            else
              match unescChar e with
              | some uc => (parseStrBody rest2).map fun p => (uc :: p.1, p.2)
              | Option.none => .error .jsonDecodeError
      else (parseStrBody rest).map fun p => (c :: p.1, p.2)

/-- Lex and classify a number token. -/
def parseNum (l : List Char) : Except PyExc (PyVal × List Char) :=
  let tok := l.takeWhile numChar
  let rest := l.dropWhile numChar
  if tok.isEmpty then .error .jsonDecodeError
  else if tokenIsInt tok then .ok (.int (intOfTok tok), rest)
  else if isFloatLitChars tok then .ok (.float ⟨tok⟩, rest)
  else .error .jsonDecodeError

mutual

/-- Decode one JSON value (fuel-based recursion; `jsonLoads` supplies
sufficient fuel).  Skips leading whitespace, then dispatches on the first
character. -/
def parseVal : Nat → List Char → Except PyExc (PyVal × List Char)
  | 0, _ => .error .jsonDecodeError
  | fuel + 1, l => parseValCore fuel (skipWs l)

/-- Dispatch on the first significant character. -/
def parseValCore : Nat → List Char → Except PyExc (PyVal × List Char)
  | 0, _ => .error .jsonDecodeError
  | _ + 1, [] => .error .jsonDecodeError
  | fuel + 1, c :: r =>
      if c = 'n' then
        match stripPre ['u', 'l', 'l'] r with
        | some r2 => .ok (.none, r2)
        | Option.none => .error .jsonDecodeError
      else if c = 't' then
        match stripPre ['r', 'u', 'e'] r with
        | some r2 => .ok (.bool true, r2)
        | Option.none => .error .jsonDecodeError
      else if c = 'f' then
        match stripPre ['a', 'l', 's', 'e'] r with
        | some r2 => .ok (.bool false, r2)
        | Option.none => .error .jsonDecodeError
      else if c = '"' then
        (parseStrBody r).map fun p => (.str ⟨p.1⟩, p.2)
      else if c = '[' then parseListTail fuel (skipWs r)
      else if c = '{' then parseDictTail fuel (skipWs r)
      else parseNum (c :: r)

/-- After `[`: an empty array or its element list. -/
def parseListTail : Nat → List Char → Except PyExc (PyVal × List Char)
  | 0, _ => .error .jsonDecodeError
  | _ + 1, [] => .error .jsonDecodeError
  | fuel + 1, c :: r =>
      if c = ']' then .ok (.list [], r)
      else (parseElems fuel (c :: r)).map fun p => (.list p.1, p.2)

/-- After `{`: an empty object or its member list. -/
def parseDictTail : Nat → List Char → Except PyExc (PyVal × List Char)
  | 0, _ => .error .jsonDecodeError
  | _ + 1, [] => .error .jsonDecodeError
  | fuel + 1, c :: r =>
      if c = '}' then .ok (.dict [], r)
      else (parseMembers fuel (c :: r)).map fun p => (.dict p.1, p.2)

/-- Decode the elements of a non-empty array (positioned at the first
element), consuming the closing bracket. -/
def parseElems : Nat → List Char → Except PyExc (List PyVal × List Char)
  | 0, _ => .error .jsonDecodeError
  | fuel + 1, l => do
      let (v, r) ← parseVal fuel l
      parseElemsRest fuel v (skipWs r)

/-- After one array element: `,` and more elements, or `]`. -/
def parseElemsRest : Nat → PyVal → List Char → Except PyExc (List PyVal × List Char)
  | 0, _, _ => .error .jsonDecodeError
  | _ + 1, _, [] => .error .jsonDecodeError
  | fuel + 1, v, c :: r2 =>
      if c = ',' then (parseElems fuel r2).map fun p => (v :: p.1, p.2)
      else if c = ']' then .ok ([v], r2)
      else .error .jsonDecodeError

/-- Decode the members of a non-empty object (positioned at the first key),
consuming the closing brace. -/
def parseMembers : Nat → List Char → Except PyExc (List (String × PyVal) × List Char)
  | 0, _ => .error .jsonDecodeError
  | fuel + 1, l => parseMembersKey fuel (skipWs l)

/-- A member must start with a quoted key. -/
def parseMembersKey : Nat → List Char → Except PyExc (List (String × PyVal) × List Char)
  | 0, _ => .error .jsonDecodeError
  | _ + 1, [] => .error .jsonDecodeError
  | fuel + 1, c :: r =>
      if c = '"' then do
        let (k, r1) ← parseStrBody r
        parseMembersColon fuel ⟨k⟩ (skipWs r1)
      else .error .jsonDecodeError

/-- After a key: `:` then the member value. -/
def parseMembersColon : Nat → String → List Char →
    Except PyExc (List (String × PyVal) × List Char)
  | 0, _, _ => .error .jsonDecodeError
  | _ + 1, _, [] => .error .jsonDecodeError
  | fuel + 1, k, c :: r2 =>
      if c = ':' then do
        let (v, r3) ← parseVal fuel r2
        parseMembersRest fuel k v (skipWs r3)
      else .error .jsonDecodeError

/-- After one member: `,` and more members, or `}`. -/
def parseMembersRest : Nat → String → PyVal → List Char →
    Except PyExc (List (String × PyVal) × List Char)
  | 0, _, _, _ => .error .jsonDecodeError
  | _ + 1, _, _, [] => .error .jsonDecodeError
  | fuel + 1, k, v, c :: r4 =>
      if c = ',' then (parseMembers fuel r4).map fun p => ((k, v) :: p.1, p.2)
      else if c = '}' then .ok ([(k, v)], r4)
      else .error .jsonDecodeError

end

/-- `json.loads`: decode one value, then require only whitespace to remain
(`Extra data` otherwise). -/
def jsonLoads (s : String) : Except PyExc PyVal :=
  match parseVal (3 * s.data.length + 4) s.data with
  | .ok (v, rest) => if (skipWs rest).isEmpty then .ok v else .error .jsonDecodeError
  | .error e => .error e

mutual

/-- Fuel sufficient for `parseVal` on this value's printed form. -/
def fuelVal : PyVal → Nat
  | .list xs => 3 + fuelElems xs
  | .dict xs => 3 + fuelMembers xs
  | _ => 2

/-- Fuel sufficient for the `parseElems` chain. -/
def fuelElems : List PyVal → Nat
  | [] => 0
  | x :: xs => 2 + fuelVal x + fuelElems xs

/-- Fuel sufficient for the `parseMembers` chain. -/
def fuelMembers : List (String × PyVal) → Nat
  | [] => 0
  | (_, v) :: xs => 4 + fuelVal v + fuelMembers xs

end

/-- The elements of a non-empty list as printed inside its brackets. -/
def dumpElemsNE : List PyVal → List Char
  | [] => []
  | x :: xs => dumpVal x ++ dumpElems xs

/-- The members of a non-empty dict as printed inside its braces. -/
def dumpMembersNE : List (String × PyVal) → List Char
  | [] => []
  | (k, v) :: xs => '"' :: escList k.data ++ ['"', ':', ' '] ++ dumpVal v ++ dumpMembers xs

/-- May the character follow a printed value without extending a number
token? -/
def restSafe : List Char → Bool
  | [] => true
  | c :: _ => !numChar c

/-! ### `Active911Alert` (dataclass, `__post_init__`, JSON conversion) -/

/-- The `Active911Alert` dataclass.  Python dataclasses do not enforce the
annotations, so every field holds a dynamic value; the annotated defaults are
`""`, `0`, `0.0` and `[]` per field. -/
structure Active911Alert where
  address : PyVal
  age : PyVal
  agency_id : PyVal
  agency_name : PyVal
  cad_code : PyVal
  city : PyVal
  cross_street : PyVal
  description : PyVal
  details : PyVal
  id : PyVal
  lat : PyVal
  lon : PyVal
  map_code : PyVal
  pagegroups : PyVal
  place : PyVal
  priority : PyVal
  response_vocabulary : PyVal
  source : PyVal
  state : PyVal
  timestamp : PyVal
  unit : PyVal
  units : PyVal

/-- The dataclass field names, in declaration order. -/
def alertFields : List String :=
  ["address", "age", "agency_id", "agency_name", "cad_code", "city",
   "cross_street", "description", "details", "id", "lat", "lon", "map_code",
   "pagegroups", "place", "priority", "response_vocabulary", "source",
   "state", "timestamp", "unit", "units"]

/-- `PageGroup.from_dict`: `cls(id=data.get("id", ""))`. -/
def pageGroupFromDict (d : List (String × PyVal)) : PyVal :=
  .pgObj ((pyLookup d "id").getD (.str ""))

/-- `__post_init__` handling of `response_vocabulary`: a string is
`json.loads`-decoded (`[]` on decode failure), `None` becomes `[]`, anything
else is left unchanged. -/
def normalizeRespVocab : PyVal → PyVal
  | .str s =>
      match jsonLoads s with
      | .ok j => j
      | .error _ => .list []
  | .none => .list []
  | v => v

/-- `__post_init__` handling of `pagegroups`: `None` becomes `[]`, a list has
its dict elements turned into `PageGroup` objects (other elements pass
through), anything else is left unchanged. -/
def normalizePagegroups : PyVal → PyVal
  | .none => .list []
  | .list xs =>
      .list (xs.map fun pg =>
        match pg with
        | .dict d => pageGroupFromDict d
        | other => other)
  | v => v

/-- `__post_init__` handling of `units`: a string is whitespace-split with
each piece stripped and empty pieces dropped, `None` becomes `[]`, anything
else is left unchanged. -/
def normalizeUnits : PyVal → PyVal
  | .str s =>
      .list ((((pySplitWS s).map pyStrip).filter fun t => !(t = "")).map PyVal.str)
  | .none => .list []
  | v => v

/-- `Active911Alert.__post_init__`. -/
def postInit (a : Active911Alert) : Active911Alert :=
  { a with
    response_vocabulary := normalizeRespVocab a.response_vocabulary,
    pagegroups := normalizePagegroups a.pagegroups,
    units := normalizeUnits a.units }

/-- The dataclass constructor applied to keyword arguments whose names are
already known to be field names: each absent field takes its annotated
default, then `__post_init__` runs. -/
def alertOfKwargs (kw : List (String × PyVal)) : Active911Alert :=
  let g := fun (k : String) (d : PyVal) => (pyLookup kw k).getD d
  postInit
    { address := g "address" (.str ""),
      age := g "age" (.int 0),
      agency_id := g "agency_id" (.int 0),
      agency_name := g "agency_name" (.str ""),
      cad_code := g "cad_code" (.str ""),
      city := g "city" (.str ""),
      cross_street := g "cross_street" (.str ""),
      description := g "description" (.str ""),
      details := g "details" (.str ""),
      id := g "id" (.int 0),
      lat := g "lat" (.float "0.0"),
      lon := g "lon" (.float "0.0"),
      map_code := g "map_code" (.str ""),
      pagegroups := g "pagegroups" (.list []),
      place := g "place" (.str ""),
      priority := g "priority" (.str ""),
      response_vocabulary := g "response_vocabulary" (.list []),
      source := g "source" (.str ""),
      state := g "state" (.str ""),
      timestamp := g "timestamp" (.int 0),
      unit := g "unit" (.str ""),
      units := g "units" (.list []) }

/-- `cls(**kwargs)`: `TypeError` on a keyword that is not a field name,
otherwise construct with defaults for absent fields. -/
def alertInit (kw : List (String × PyVal)) : Except PyExc Active911Alert :=
  if kw.all (fun kv => alertFields.contains kv.1) then .ok (alertOfKwargs kw)
  else .error (.typeError "unexpected keyword argument")

mutual

/-- `dataclasses.asdict` value conversion: `PageGroup` instances become
`{"id": ...}` dicts, containers are converted recursively, everything else is
(deep-)copied as is. -/
def asdictVal : PyVal → PyVal
  | .pgObj i => .dict [("id", asdictVal i)]
  | .list xs => .list (asdictValList xs)
  | .dict xs => .dict (asdictValDict xs)
  | v => v

/-- `asdictVal` over list elements. -/
def asdictValList : List PyVal → List PyVal
  | [] => []
  | x :: xs => asdictVal x :: asdictValList xs

/-- `asdictVal` over dict entries. -/
def asdictValDict : List (String × PyVal) → List (String × PyVal)
  | [] => []
  | (k, v) :: xs => (k, asdictVal v) :: asdictValDict xs

end

/-- `dataclasses.asdict(self)`: the fields in declaration order. -/
def alertAsdict (a : Active911Alert) : List (String × PyVal) :=
  [("address", asdictVal a.address), ("age", asdictVal a.age),
   ("agency_id", asdictVal a.agency_id), ("agency_name", asdictVal a.agency_name),
   ("cad_code", asdictVal a.cad_code), ("city", asdictVal a.city),
   ("cross_street", asdictVal a.cross_street), ("description", asdictVal a.description),
   ("details", asdictVal a.details), ("id", asdictVal a.id),
   ("lat", asdictVal a.lat), ("lon", asdictVal a.lon),
   ("map_code", asdictVal a.map_code), ("pagegroups", asdictVal a.pagegroups),
   ("place", asdictVal a.place), ("priority", asdictVal a.priority),
   ("response_vocabulary", asdictVal a.response_vocabulary),
   ("source", asdictVal a.source), ("state", asdictVal a.state),
   ("timestamp", asdictVal a.timestamp), ("unit", asdictVal a.unit),
   ("units", asdictVal a.units)]

/-- One step of `[pg.to_dict() for pg in self.pagegroups]` over a list:
`PageGroup` elements become `{"id": ...}`; any other element lacks
`.to_dict`, raising `AttributeError` at that point. -/
def pgMapToDict : List PyVal → Except PyExc (List PyVal)
  | [] => .ok []
  | pg :: rest => do
      let d ← (match pg with
        | PyVal.pgObj i => Except.ok (PyVal.dict [("id", i)])
        | _ => Except.error (PyExc.attributeError "no attribute to_dict"))
      let ds ← pgMapToDict rest
      pure (d :: ds)

/-- `[pg.to_dict() for pg in self.pagegroups]`: `PageGroup` elements become
`{"id": ...}`; any other element lacks `.to_dict` (`AttributeError`), and a
non-iterable field value is a `TypeError` (iterating a non-empty string or
dict yields non-`PageGroup` items, hence also `AttributeError`). -/
def pgToDictList : PyVal → Except PyExc (List PyVal)
  | .list xs => pgMapToDict xs
  | .str s =>
      match s.data with
      | [] => .ok []
      | _ => .error (.attributeError "no attribute to_dict")
  | .dict xs =>
      match xs with
      | [] => .ok []
      | _ => .error (.attributeError "no attribute to_dict")
  | _ => .error (.typeError "object is not iterable")

/-- In-place dict update `data[k] = v` for a key already present. -/
def setKey (xs : List (String × PyVal)) (k : String) (v : PyVal) :
    List (String × PyVal) :=
  xs.map fun kv => if kv.1 = k then (kv.1, v) else kv

/-- `Active911Alert.to_dict`: `asdict`, then replace `pagegroups` with the
page groups' dicts and `response_vocabulary` with its `json.dumps` string. -/
def to_dict (a : Active911Alert) : Except PyExc (List (String × PyVal)) := do
  let data := alertAsdict a
  let pgs ← pgToDictList a.pagegroups
  let rv ← jsonDumps a.response_vocabulary
  pure (setKey (setKey data "pagegroups" (.list pgs)) "response_vocabulary" (.str rv))

/-- `Active911Alert.to_json`: `json.dumps(self.to_dict())`. -/
def to_json (a : Active911Alert) : Except PyExc String := do
  let d ← to_dict a
  jsonDumps (.dict d)

/-- `Active911Alert.from_dict`: drop `None`-valued keys, then `cls(**kwargs)`
(so an unknown non-`None` key is a `TypeError`); a non-dict argument lacks
`.items()`. -/
def from_dict : PyVal → Except PyExc Active911Alert
  | .dict d => alertInit (d.filter fun kv => !(PyVal.beq kv.2 .none))
  | _ => .error (.attributeError "no attribute items")

/-- `Active911Alert.from_json`: `json.loads` then `from_dict`; only a JSON
decode failure is caught (yielding the default record). -/
def from_json (s : String) : Except PyExc Active911Alert :=
  match jsonLoads s with
  | .ok v => from_dict v
  | .error _ => .ok (alertOfKwargs [])

/-- Is the value a Python `str`? -/
def isStrVal : PyVal → Bool
  | .str _ => true
  | _ => false

/-- Is the value a Python `int`? -/
def isIntVal : PyVal → Bool
  | .int _ => true
  | _ => false

/-- Is the value a well-formed finite float? -/
def isWfFloat : PyVal → Bool
  | .float lit => isFloatLit lit
  | _ => false

/-- Is the value a list of strings? -/
def isStrList : PyVal → Bool
  | .list xs => xs.all isStrVal
  | _ => false

/-- Is the value a list of `PageGroup` objects with string ids? -/
def isPgList : PyVal → Bool
  | .list xs =>
      xs.all fun v =>
        match v with
        | .pgObj (.str _) => true
        | _ => false
  | _ => false

/-- A record whose fields match the dataclass annotations (and whose floats
are finite): the well-typedness the wire format expects. -/
def wellTypedAlert (a : Active911Alert) : Bool :=
  isStrVal a.address && isIntVal a.age && isIntVal a.agency_id &&
  isStrVal a.agency_name && isStrVal a.cad_code && isStrVal a.city &&
  isStrVal a.cross_street && isStrVal a.description && isStrVal a.details &&
  isIntVal a.id && isWfFloat a.lat && isWfFloat a.lon && isStrVal a.map_code &&
  isPgList a.pagegroups && isStrVal a.place && isStrVal a.priority &&
  isStrList a.response_vocabulary && isStrVal a.source && isStrVal a.state &&
  isIntVal a.timestamp && isStrVal a.unit && isStrList a.units

/-- Claim C3's target property, modelled from the spec's words: a list whose
elements are all non-empty strings equal to their own `strip()`. -/
def isTrimmedNonEmptyStrList : PyVal → Bool
  | .list xs =>
      xs.all fun u =>
        match u with
        | .str s => !(s = "") && pyStrip s = s
        | _ => false
  | _ => false

/-- Number of `try_reconnect` invocations recorded in an action trace. -/
def countEnter : List XAct → Nat
  | [] => 0
  | XAct.reconnectEnter :: r => 1 + countEnter r
  | _ :: r => countEnter r

/-- The sleeps recorded in an action trace, in order. -/
def sleepSecs : List XAct → List Nat
  | [] => []
  | XAct.sleep d :: r => d :: sleepSecs r
  | _ :: r => sleepSecs r

/-- Number of error-handler invocations recorded in an action trace. -/
def countErrorCalls : List XAct → Nat
  | [] => 0
  | XAct.errorHandlerCall _ :: r => 1 + countErrorCalls r
  | _ :: r => countErrorCalls r

/-- Number of raw connect calls recorded in an action trace. -/
def countConnects : List XAct → Nat
  | [] => 0
  | XAct.connectCall :: r => 1 + countConnects r
  | _ :: r => countConnects r

/-- The trace suffix from the first error-handler invocation on. -/
def afterFirstErrorCall : List XAct → List XAct
  | [] => []
  | XAct.errorHandlerCall m :: r => XAct.errorHandlerCall m :: r
  | _ :: r => afterFirstErrorCall r

/-- A sample well-typed alert used to witness the round trip. -/
def sampleAlert : Active911Alert :=
  alertOfKwargs
    [("id", .int 7), ("timestamp", .int 1736021099),
     ("address", .str "1 Main St"), ("units", .str "E1 M2"),
     ("pagegroups", .list [.dict [("id", .str "pg1")]]),
     ("response_vocabulary", .list [.str "Responding", .str "On Scene"])]

/-- A sample client state (fresh client with an open session). -/
def sampleClient : ClientState :=
  { sessionOpen := true, device_code := "sample-code",
    user_id := Option.none, device_id := Option.none,
    registration_code := Option.none,
    is_registered := false, is_authenticated := false }

/-! ### Lemmas: characters, whitespace, tokens -/

/-- `skipWs` is the identity on input with a non-whitespace head. -/
theorem skipWs_not_ws {c : Char} (l : List Char) (h : jsonWsB c = false) :
    skipWs (c :: l) = c :: l := by
  simp [skipWs, List.dropWhile_cons, h]

/-- `skipWs` drops a leading blank. -/
theorem skipWs_space (l : List Char) : skipWs (' ' :: l) = skipWs l := by
  simp [skipWs, List.dropWhile_cons, jsonWsB]

/-- Stripping a literal prefix off itself. -/
theorem stripPre_self (es l : List Char) : stripPre es (es ++ l) = some l := by
  induction es with
  | nil => rfl
  | cons e es ih => simp [stripPre, ih]

/-- The head of `r` (if any) fails `p`. -/
def headFails (p : Char → Bool) (r : List Char) : Prop :=
  ∀ c t, r = c :: t → p c = false

/-- `takeWhile` over an all-satisfying prefix followed by a failing head. -/
theorem takeWhile_append_all (p : Char → Bool) (l r : List Char)
    (h1 : ∀ c ∈ l, p c = true) (h2 : headFails p r) :
    (l ++ r).takeWhile p = l := by
  induction l with
  | nil =>
      cases r with
      | nil => rfl
      | cons c t => simp [List.takeWhile_cons, h2 c t rfl]
  | cons c cs ih =>
      have hc := h1 c (by simp)
      simp only [List.cons_append, List.takeWhile_cons, hc]
      simp [ih (fun c hc => h1 c (by simp [hc]))]

/-- `dropWhile` over an all-satisfying prefix followed by a failing head. -/
theorem dropWhile_append_all (p : Char → Bool) (l r : List Char)
    (h1 : ∀ c ∈ l, p c = true) (h2 : headFails p r) :
    (l ++ r).dropWhile p = r := by
  induction l with
  | nil =>
      cases r with
      | nil => rfl
      | cons c t => simp [List.dropWhile_cons, h2 c t rfl]
  | cons c cs ih =>
      have hc := h1 c (by simp)
      simp only [List.cons_append, List.dropWhile_cons, hc]
      simp [ih (fun c hc => h1 c (by simp [hc]))]

/-- A safe rest has a head failing `numChar`. -/
theorem restSafe_headFails {r : List Char} (h : restSafe r = true) :
    headFails numChar r := by
  intro c t hr
  subst hr
  simpa [restSafe] using h

/-! ### Lemmas: decimal digits and integer tokens -/

/-- `digitChar` emits decimal digits. -/
theorem isDigitB_digitChar (k : Nat) (h : k < 10) : isDigitB (digitChar k) = true := by
  interval_cases k <;> decide

/-- `digitVal` inverts `digitChar`. -/
theorem digitVal_digitChar (k : Nat) (h : k < 10) : digitVal (digitChar k) = k := by
  interval_cases k <;> decide

/-- `parseDigits` peels the last digit. -/
theorem parseDigits_append_one (l : List Char) (c : Char) :
    parseDigits (l ++ [c]) = parseDigits l * 10 + digitVal c := by
  simp [parseDigits, List.foldl_append]

/-- Correctness of the fuelled decimal printer. -/
theorem natCharsAux_spec (fuel : Nat) :
    ∀ n : Nat, n < fuel →
      parseDigits (natCharsAux fuel n) = n ∧
      (∀ c ∈ natCharsAux fuel n, isDigitB c = true) ∧
      natCharsAux fuel n ≠ [] := by
  induction fuel with
  | zero => intro n h; omega
  | succ fuel ih =>
      intro n h
      by_cases h10 : n < 10
      · refine ⟨?_, ?_, ?_⟩ <;> simp [natCharsAux, h10, parseDigits]
        · exact digitVal_digitChar n h10
        · exact isDigitB_digitChar n h10
      · have hdiv : n / 10 < fuel := by omega
        obtain ⟨ih1, ih2, ih3⟩ := ih (n / 10) hdiv
        refine ⟨?_, ?_, ?_⟩
        · simp only [natCharsAux, if_neg h10]
          rw [parseDigits_append_one, ih1, digitVal_digitChar _ (by omega)]
          omega
        · intro c hc
          simp only [natCharsAux, if_neg h10, List.mem_append, List.mem_singleton] at hc
          rcases hc with hc | hc
          · exact ih2 c hc
          · subst hc; exact isDigitB_digitChar _ (by omega)
        · simp [natCharsAux, if_neg h10, ih3]

/-- `parseDigits` inverts `natChars`. -/
theorem parseDigits_natChars (n : Nat) : parseDigits (natChars n) = n :=
  (natCharsAux_spec (n + 1) n (by omega)).1

/-- `natChars` emits only digits. -/
theorem natChars_digits (n : Nat) : ∀ c ∈ natChars n, isDigitB c = true :=
  (natCharsAux_spec (n + 1) n (by omega)).2.1

/-- `natChars` is never empty. -/
theorem natChars_ne_nil (n : Nat) : natChars n ≠ [] :=
  (natCharsAux_spec (n + 1) n (by omega)).2.2

/-- `natChars` output is a non-empty all-digit token. -/
theorem allDigits1_natChars (n : Nat) : allDigits1 (natChars n) = true := by
  have h1 := natChars_digits n
  have h2 := natChars_ne_nil n
  simp only [allDigits1, List.isEmpty_iff, List.all_eq_true, Bool.and_eq_true,
    Bool.not_eq_true']
  exact ⟨by simpa using h2, fun c hc => h1 c hc⟩

/-- Digits are number characters. -/
theorem numChar_of_digit {c : Char} (h : isDigitB c = true) : numChar c = true := by
  simp [numChar, h]

/-- A digit is not the minus sign (needed to pick the unsigned branch). -/
theorem digit_ne_minus {c : Char} (h : isDigitB c = true) : c ≠ '-' := by
  intro heq; rw [heq] at h; exact absurd h (by decide)

/-- Every character of an integer token is a number character. -/
theorem intChars_numChar (n : Int) : ∀ c ∈ intChars n, numChar c = true := by
  intro c hc
  by_cases hneg : n < 0
  · simp only [intChars, if_pos hneg, List.mem_cons] at hc
    rcases hc with hc | hc
    · subst hc; decide
    · exact numChar_of_digit (natChars_digits _ c hc)
  · simp only [intChars, if_neg hneg] at hc
    exact numChar_of_digit (natChars_digits _ c hc)

/-- An integer token is classified as an int. -/
theorem tokenIsInt_intChars (n : Int) : tokenIsInt (intChars n) = true := by
  by_cases hneg : n < 0
  · simp [intChars, if_pos hneg, tokenIsInt, allDigits1_natChars]
  · simp only [intChars, if_neg hneg]
    rcases hh : natChars n.natAbs with _ | ⟨c, r⟩
    · exact absurd hh (natChars_ne_nil _)
    · have hd : isDigitB c = true := natChars_digits _ c (by rw [hh]; simp)
      rw [tokenIsInt, if_neg (digit_ne_minus hd), ← hh]
      exact allDigits1_natChars _

/-- `intOfTok` inverts `intChars`. -/
theorem intOfTok_intChars (n : Int) : intOfTok (intChars n) = n := by
  by_cases hneg : n < 0
  · have h1 : intOfTok ('-' :: natChars n.natAbs)
        = -(parseDigits (natChars n.natAbs) : Int) := by
      rw [intOfTok]; simp
    simp only [intChars, if_pos hneg, h1, parseDigits_natChars]
    omega
  · simp only [intChars, if_neg hneg]
    rcases hh : natChars n.natAbs with _ | ⟨c, r⟩
    · exact absurd hh (natChars_ne_nil _)
    · have hd : isDigitB c = true := natChars_digits _ c (by rw [hh]; simp)
      rw [intOfTok, if_neg (digit_ne_minus hd), ← hh, parseDigits_natChars]
      omega

/-- `parseNum` on a printed integer. -/
theorem parseNum_int (n : Int) (rest : List Char) (hr : restSafe rest = true) :
    parseNum (intChars n ++ rest) = .ok (.int n, rest) := by
  have ht := takeWhile_append_all numChar (intChars n) rest
    (intChars_numChar n) (restSafe_headFails hr)
  have hd := dropWhile_append_all numChar (intChars n) rest
    (intChars_numChar n) (restSafe_headFails hr)
  have hne : intChars n ≠ [] := by
    by_cases hneg : n < 0 <;> simp [intChars, hneg, natChars_ne_nil]
  rw [parseNum]
  simp only [ht, hd, List.isEmpty_iff]
  rw [if_neg hne, if_pos (tokenIsInt_intChars n), intOfTok_intChars]

/-! ### Lemmas: string escaping round trip -/

/-- `hexVal` inverts `hexChar`. -/
theorem hexVal_hexChar (k : Nat) (h : k < 16) : hexVal (hexChar k) = k := by
  interval_cases k <;> decide

/-- Decoding inverts `json.dumps` string escaping. -/
theorem rtStrBody (cs : List Char) (rest : List Char) :
    parseStrBody (escList cs ++ '"' :: rest) = .ok (cs, rest) := by
  induction cs generalizing rest with
  | nil => rw [escList, List.nil_append, parseStrBody.eq_def]; simp
  | cons c cs ih =>
      by_cases h1 : c = '"'
      · subst h1
        rw [escList]
        rw [show escChar '"' = ['\\', '"'] from rfl]
        rw [List.append_assoc, List.cons_append, List.cons_append,
          List.nil_append, parseStrBody.eq_def]
        simp [unescChar, ih, Except.map]
      · by_cases h2 : c = '\\'
        · subst h2
          rw [escList, show escChar '\\' = ['\\', '\\'] from rfl]
          rw [List.append_assoc, List.cons_append, List.cons_append,
            List.nil_append, parseStrBody.eq_def]
          simp [unescChar, ih, Except.map]
        · by_cases h3 : c = '\n'
          · subst h3
            rw [escList, show escChar '\n' = ['\\', 'n'] from rfl]
            rw [List.append_assoc, List.cons_append, List.cons_append,
              List.nil_append, parseStrBody.eq_def]
            simp [unescChar, ih, Except.map]
          · by_cases h4 : c = '\t'
            · subst h4
              rw [escList, show escChar '\t' = ['\\', 't'] from rfl]
              rw [List.append_assoc, List.cons_append, List.cons_append,
                List.nil_append, parseStrBody.eq_def]
              simp [unescChar, ih, Except.map]
            · by_cases h5 : c = '\r'
              · subst h5
                rw [escList, show escChar '\r' = ['\\', 'r'] from rfl]
                rw [List.append_assoc, List.cons_append, List.cons_append,
                  List.nil_append, parseStrBody.eq_def]
                simp [unescChar, ih, Except.map]
              · by_cases h6 : c = '\x08'
                · subst h6
                  rw [escList, show escChar '\x08' = ['\\', 'b'] from rfl]
                  rw [List.append_assoc, List.cons_append, List.cons_append,
                    List.nil_append, parseStrBody.eq_def]
                  simp [unescChar, ih, Except.map]
                · by_cases h7 : c = '\x0c'
                  · subst h7
                    rw [escList, show escChar '\x0c' = ['\\', 'f'] from rfl]
                    rw [List.append_assoc, List.cons_append, List.cons_append,
                      List.nil_append, parseStrBody.eq_def]
                    simp [unescChar, ih, Except.map]
                  · by_cases h8 : c.toNat < 32
                    · have e1 : hexVal (hexChar (c.toNat / 16)) = c.toNat / 16 :=
                        hexVal_hexChar _ (by omega)
                      have e2 : hexVal (hexChar (c.toNat % 16)) = c.toNat % 16 :=
                        hexVal_hexChar _ (by omega)
                      have e5 : Char.ofNat
                          (hexVal '0' * 4096 + hexVal '0' * 256 +
                            hexVal (hexChar (c.toNat / 16)) * 16 +
                            hexVal (hexChar (c.toNat % 16))) = c := by
                        rw [e1, e2,
                          show hexVal '0' = 0 from rfl,
                          show 0 * 4096 + 0 * 256 + c.toNat / 16 * 16 + c.toNat % 16
                            = c.toNat by omega, Char.ofNat_toNat]
                      rw [escList, escChar, if_neg h1, if_neg h2, if_neg h3,
                        if_neg h4, if_neg h5, if_neg h6, if_neg h7, if_pos h8]
                      rw [List.append_assoc, List.cons_append, List.cons_append,
                        List.cons_append, List.cons_append, List.cons_append,
                        List.cons_append, List.nil_append, parseStrBody.eq_def]
                      simp only [reduceIte, ih, Except.map, e5]
                      rw [if_neg (show ¬('\\' : Char) = '"' by decide)]
                    · rw [escList, escChar, if_neg h1, if_neg h2, if_neg h3,
                        if_neg h4, if_neg h5, if_neg h6, if_neg h7, if_neg h8]
                      rw [List.cons_append, List.nil_append, parseStrBody.eq_def]
                      simp [h1, h2, ih, Except.map]

/-! ### Lemmas: float literals -/

/-- Non-empty all-digit lists: membership consequence. -/
theorem allDigits1_mem {l : List Char} (h : allDigits1 l = true) :
    ∀ c ∈ l, isDigitB c = true := by
  simp only [allDigits1, Bool.and_eq_true, List.all_eq_true] at h
  exact h.2

/-- Exponent tails contain only number characters. -/
theorem isExpTail_numChar {l : List Char} (h : isExpTail l = true) :
    ∀ c ∈ l, numChar c = true := by
  cases l with
  | nil => simp [isExpTail] at h
  | cons c r =>
      rw [isExpTail] at h
      by_cases hs : c = '+' ∨ c = '-'
      · rw [if_pos (by simpa using hs)] at h
        intro x hx
        rcases List.mem_cons.1 hx with hx | hx
        · subst hx; rcases hs with hs | hs <;> subst hs <;> decide
        · exact numChar_of_digit (allDigits1_mem h x hx)
      · rw [if_neg (by simpa using hs)] at h
        exact fun x hx => numChar_of_digit (allDigits1_mem h x hx)

/-- Characters accepted by `floatFracExp` are number characters. -/
theorem floatFracExp_numChar {l : List Char} (h : floatFracExp l = true) :
    ∀ c ∈ l, numChar c = true := by
  cases l with
  | nil => simp
  | cons e r4 =>
      rw [floatFracExp] at h
      cases hee : (decide (e = 'e') || decide (e = 'E')) with
      | false => rw [hee] at h; simp at h
      | true =>
          rw [hee] at h
          simp only [if_true] at h
          have he : e = 'e' ∨ e = 'E' := by simpa using hee
          intro x hx
          rcases List.mem_cons.1 hx with hx | hx
          · subst hx; rcases he with he | he <;> subst he <;> decide
          · exact isExpTail_numChar h x hx

/-- Characters accepted by `floatFracTail` are number characters. -/
theorem floatFracTail_numChar {l : List Char} (h : floatFracTail l = true) :
    ∀ c ∈ l, numChar c = true := by
  rw [floatFracTail] at h
  rcases hds : l.takeWhile isDigitB with _ | ⟨d2, ds2⟩
  · rw [hds] at h; simp at h
  · rw [hds] at h
    simp only [List.isEmpty_cons, Bool.false_eq_true, if_false] at h
    intro x hx
    have hx2 : x ∈ l.takeWhile isDigitB ∨ x ∈ l.dropWhile isDigitB := by
      rw [← List.mem_append, List.takeWhile_append_dropWhile]; exact hx
    rcases hx2 with hx2 | hx2
    · exact numChar_of_digit (List.mem_takeWhile_imp hx2)
    · exact floatFracExp_numChar h x hx2

/-- Characters accepted by `floatAfterDigits` are number characters. -/
theorem floatAfterDigits_numChar {l : List Char} (h : floatAfterDigits l = true) :
    ∀ c ∈ l, numChar c = true := by
  cases l with
  | nil => simp
  | cons c r2 =>
      rw [floatAfterDigits] at h
      by_cases hdot : c = '.'
      · rw [if_pos hdot] at h
        intro x hx
        rcases List.mem_cons.1 hx with hx | hx
        · subst hx; subst hdot; decide
        · exact floatFracTail_numChar h x hx
      · rw [if_neg hdot] at h
        cases hee : (decide (c = 'e') || decide (c = 'E')) with
        | false => rw [hee] at h; simp at h
        | true =>
            rw [hee] at h
            simp only [if_true] at h
            have he : c = 'e' ∨ c = 'E' := by simpa using hee
            intro x hx
            rcases List.mem_cons.1 hx with hx | hx
            · subst hx; rcases he with he | he <;> subst he <;> decide
            · exact isExpTail_numChar h x hx

/-- Everything the float-core grammar accepts is made of number characters,
is non-empty, starts with a digit, and is not an all-digit (int) token. -/
theorem isFloatCore_props {l : List Char} (h : isFloatCore l = true) :
    (∀ c ∈ l, numChar c = true) ∧ (∃ c r, l = c :: r ∧ isDigitB c = true) ∧
      allDigits1 l = false := by
  rw [isFloatCore] at h
  rcases hds : l.takeWhile isDigitB with _ | ⟨d, ds⟩
  · rw [hds] at h; simp at h
  · rw [hds] at h
    simp only [List.isEmpty_cons, Bool.false_eq_true, if_false] at h
    have hd : isDigitB d = true := by
      have : d ∈ l.takeWhile isDigitB := by rw [hds]; simp
      exact List.mem_takeWhile_imp this
    rcases hrest : l.dropWhile isDigitB with _ | ⟨c, r2⟩
    · rw [hrest] at h; simp [floatAfterDigits] at h
    · rw [hrest] at h
      have hne : allDigits1 l = false := by
        by_contra hcon
        have hall : allDigits1 l = true := by
          cases hy : allDigits1 l
          · exact absurd hy hcon
          · rfl
        have : l.dropWhile isDigitB = [] :=
          List.dropWhile_eq_nil_iff.2 (fun x hx => allDigits1_mem hall x hx)
        rw [hrest] at this; exact absurd this (by simp)
      have hl : l = (d :: ds) ++ (c :: r2) := by
        rw [← hds, ← hrest, List.takeWhile_append_dropWhile]
      refine ⟨?_, ⟨d, ds ++ c :: r2, by simpa using hl, hd⟩, hne⟩
      intro x hx
      have hx2 : x ∈ l.takeWhile isDigitB ∨ x ∈ l.dropWhile isDigitB := by
        rw [← List.mem_append, List.takeWhile_append_dropWhile]; exact hx
      rcases hx2 with hx2 | hx2
      · exact numChar_of_digit (List.mem_takeWhile_imp hx2)
      · rw [hrest] at hx2
        exact floatAfterDigits_numChar h x hx2

/-- A well-formed float literal consists of number characters. -/
theorem isFloatLitChars_numChar {l : List Char} (h : isFloatLitChars l = true) :
    ∀ c ∈ l, numChar c = true := by
  cases l with
  | nil => simp [isFloatLitChars] at h
  | cons c r =>
      rw [isFloatLitChars] at h
      by_cases hm : c = '-'
      · rw [if_pos hm] at h
        intro x hx
        rcases List.mem_cons.1 hx with hx | hx
        · subst hx; subst hm; decide
        · exact (isFloatCore_props h).1 x hx
      · rw [if_neg hm] at h
        exact (isFloatCore_props h).1

/-- A well-formed float literal is not an int token. -/
theorem isFloatLitChars_not_int {l : List Char} (h : isFloatLitChars l = true) :
    tokenIsInt l = false := by
  cases l with
  | nil => simp [isFloatLitChars] at h
  | cons c r =>
      rw [isFloatLitChars] at h
      rw [tokenIsInt]
      by_cases hm : c = '-'
      · rw [if_pos hm] at h; rw [if_pos hm]
        rcases (isFloatCore_props h).2.2 with h3
        have := (isFloatCore_props h).2.1
        -- allDigits1 r = false
        exact h3
      · rw [if_neg hm] at h; rw [if_neg hm]
        exact (isFloatCore_props h).2.2

/-- A well-formed float literal is non-empty. -/
theorem isFloatLitChars_ne_nil {l : List Char} (h : isFloatLitChars l = true) :
    l ≠ [] := by
  cases l with
  | nil => simp [isFloatLitChars] at h
  | cons c r => simp

/-- `parseNum` on a printed float literal. -/
theorem parseNum_float (lit : String) (rest : List Char)
    (hf : isFloatLit lit = true) (hr : restSafe rest = true) :
    parseNum (lit.data ++ rest) = .ok (.float lit, rest) := by
  rw [isFloatLit] at hf
  have ht := takeWhile_append_all numChar lit.data rest
    (isFloatLitChars_numChar hf) (restSafe_headFails hr)
  have hd := dropWhile_append_all numChar lit.data rest
    (isFloatLitChars_numChar hf) (restSafe_headFails hr)
  rw [parseNum]
  simp only [ht, hd, List.isEmpty_iff]
  rw [if_neg (isFloatLitChars_ne_nil hf),
    if_neg (by rw [isFloatLitChars_not_int hf]; exact Bool.false_ne_true),
    if_pos hf]

/-! ### Lemmas: heads of printed values, whitespace tolerance -/

/-- String eta: rebuilding a string from its characters. -/
theorem stringEta (s : String) : (⟨s.data⟩ : String) = s := rfl

/-- A character that can start a number token is none of the characters the
value parser dispatches on, nor a closer/separator, nor whitespace. -/
theorem numStart_facts {c : Char} (h : isDigitB c = true ∨ c = '-') :
    c ≠ 'n' ∧ c ≠ 't' ∧ c ≠ 'f' ∧ c ≠ '"' ∧ c ≠ '[' ∧ c ≠ '{' ∧
      jsonWsB c = false ∧ c ≠ ']' ∧ c ≠ '}' ∧ c ≠ ',' ∧ c ≠ ':' := by
  rcases h with h | h
  · have hv : 48 ≤ c.toNat ∧ c.toNat ≤ 57 := by
      simpa [isDigitB, Bool.and_eq_true] using h
    have hws : jsonWsB c = false := by
      cases hc : jsonWsB c
      · rfl
      · have : ((c = ' ' ∨ c = '\t') ∨ c = '\n') ∨ c = '\r' := by
          simpa [jsonWsB] using hc
        rcases this with ((hx | hx) | hx) | hx <;> subst hx <;>
          exact absurd hv (by decide)
    refine ⟨?_, ?_, ?_, ?_, ?_, ?_, hws, ?_, ?_, ?_, ?_⟩ <;>
      (intro he; subst he; exact absurd hv (by decide))
  · subst h; decide

/-- The head of a printed integer can start a number token. -/
theorem intChars_head (n : Int) :
    ∃ c r, intChars n = c :: r ∧ (isDigitB c = true ∨ c = '-') := by
  by_cases hneg : n < 0
  · exact ⟨'-', natChars n.natAbs, by simp [intChars, hneg], Or.inr rfl⟩
  · rcases hh : natChars n.natAbs with _ | ⟨c, r⟩
    · exact absurd hh (natChars_ne_nil _)
    · refine ⟨c, r, by simp [intChars, hneg, hh], Or.inl ?_⟩
      exact natChars_digits _ c (by rw [hh]; simp)

/-- The head of a well-formed float literal can start a number token. -/
theorem floatLit_head {l : List Char} (h : isFloatLitChars l = true) :
    ∃ c r, l = c :: r ∧ (isDigitB c = true ∨ c = '-') := by
  cases l with
  | nil => simp [isFloatLitChars] at h
  | cons c r =>
      rw [isFloatLitChars] at h
      by_cases hm : c = '-'
      · exact ⟨c, r, rfl, Or.inr hm⟩
      · rw [if_neg hm] at h
        obtain ⟨c', r', heq, hd⟩ := (isFloatCore_props h).2.1
        obtain ⟨h1, h2⟩ := List.cons_eq_cons.mp heq
        exact ⟨c, r, rfl, Or.inl (by rw [h1]; exact hd)⟩

/-- Every printed value starts with a character that is not whitespace and
not a closer or separator. -/
theorem dumpVal_shape (v : PyVal) (h : wfSer v = true) :
    ∃ c r, dumpVal v = c :: r ∧ jsonWsB c = false ∧ c ≠ ']' ∧ c ≠ '}' ∧
      c ≠ ',' ∧ c ≠ ':' := by
  cases v with
  | none => exact ⟨'n', _, rfl, by decide, by decide, by decide, by decide, by decide⟩
  | bool b =>
      cases b with
      | true => exact ⟨'t', _, rfl, by decide, by decide, by decide, by decide, by decide⟩
      | false => exact ⟨'f', _, rfl, by decide, by decide, by decide, by decide, by decide⟩
  | int n =>
      obtain ⟨c, r, heq, hd⟩ := intChars_head n
      obtain ⟨_, _, _, _, _, _, hws, h1, h2, h3, h4⟩ := numStart_facts hd
      exact ⟨c, r, heq, hws, h1, h2, h3, h4⟩
  | float lit =>
      rw [wfSer, isFloatLit] at h
      obtain ⟨c, r, heq, hd⟩ := floatLit_head h
      obtain ⟨_, _, _, _, _, _, hws, h1, h2, h3, h4⟩ := numStart_facts hd
      exact ⟨c, r, by rw [dumpVal, heq], hws, h1, h2, h3, h4⟩
  | str s => exact ⟨'"', _, rfl, by decide, by decide, by decide, by decide, by decide⟩
  | list xs =>
      cases xs with
      | nil => exact ⟨'[', _, rfl, by decide, by decide, by decide, by decide, by decide⟩
      | cons x xs =>
          exact ⟨'[', _, rfl, by decide, by decide, by decide, by decide, by decide⟩
  | dict xs =>
      cases xs with
      | nil => exact ⟨'{', _, rfl, by decide, by decide, by decide, by decide, by decide⟩
      | cons kv xs =>
          obtain ⟨k, v⟩ := kv
          exact ⟨'{', _, rfl, by decide, by decide, by decide, by decide, by decide⟩
  | pgObj i => rw [wfSer] at h; exact absurd h (by decide)

/-- `parseVal` ignores a leading blank. -/
theorem parseVal_space (fuel : Nat) (l : List Char) :
    parseVal fuel (' ' :: l) = parseVal fuel l := by
  cases fuel with
  | zero => rfl
  | succ f =>
      show parseValCore f (skipWs (' ' :: l)) = parseValCore f (skipWs l)
      rw [skipWs_space]

/-- `parseElems` ignores a leading blank. -/
theorem parseElems_space (fuel : Nat) (l : List Char) :
    parseElems fuel (' ' :: l) = parseElems fuel l := by
  cases fuel with
  | zero => rfl
  | succ f =>
      show (do
        let (v, r) ← parseVal f (' ' :: l)
        parseElemsRest f v (skipWs r)) = _
      rw [parseVal_space]
      rfl

/-- `parseMembers` ignores a leading blank. -/
theorem parseMembers_space (fuel : Nat) (l : List Char) :
    parseMembers fuel (' ' :: l) = parseMembers fuel l := by
  cases fuel with
  | zero => rfl
  | succ f =>
      show parseMembersKey f (skipWs (' ' :: l)) = parseMembersKey f (skipWs l)
      rw [skipWs_space]

/-! ### Lemmas: one-step unfoldings of the decoder -/

/-- `parseVal` on positive fuel. -/
theorem parseVal_succ (f : Nat) (l : List Char) :
    parseVal (f + 1) l = parseValCore f (skipWs l) := rfl

/-- `parseElems` on positive fuel. -/
theorem parseElems_succ (f : Nat) (l : List Char) :
    parseElems (f + 1) l = (do
      let (v, r) ← parseVal f l
      parseElemsRest f v (skipWs r)) := rfl

/-- `parseMembers` on positive fuel. -/
theorem parseMembers_succ (f : Nat) (l : List Char) :
    parseMembers (f + 1) l = parseMembersKey f (skipWs l) := rfl

/-- `parseValCore` on a number-starting character falls through to
`parseNum`. -/
theorem parseValCore_num (f : Nat) (c : Char) (r : List Char)
    (h : isDigitB c = true ∨ c = '-') :
    parseValCore (f + 1) (c :: r) = parseNum (c :: r) := by
  obtain ⟨h1, h2, h3, h4, h5, h6, _, _, _, _, _⟩ := numStart_facts h
  change (if c = 'n' then
        match stripPre ['u', 'l', 'l'] r with
        | some r2 => Except.ok (PyVal.none, r2)
        | Option.none => Except.error PyExc.jsonDecodeError
      else if c = 't' then
        match stripPre ['r', 'u', 'e'] r with
        | some r2 => Except.ok (PyVal.bool true, r2)
        | Option.none => Except.error PyExc.jsonDecodeError
      else if c = 'f' then
        match stripPre ['a', 'l', 's', 'e'] r with
        | some r2 => Except.ok (PyVal.bool false, r2)
        | Option.none => Except.error PyExc.jsonDecodeError
      else if c = '"' then
        (parseStrBody r).map fun p => (PyVal.str ⟨p.1⟩, p.2)
      else if c = '[' then parseListTail f (skipWs r)
      else if c = '{' then parseDictTail f (skipWs r)
      else parseNum (c :: r)) = parseNum (c :: r)
  rw [if_neg h1, if_neg h2, if_neg h3, if_neg h4, if_neg h5, if_neg h6]

/-- `parseListTail` on a non-`]` head parses the element list. -/
theorem parseListTail_go (f : Nat) (c : Char) (r : List Char) (h : c ≠ ']') :
    parseListTail (f + 1) (c :: r) =
      (parseElems f (c :: r)).map fun p => (PyVal.list p.1, p.2) := by
  change (if c = ']' then Except.ok (PyVal.list [], r)
      else (parseElems f (c :: r)).map fun p => (PyVal.list p.1, p.2)) = _
  rw [if_neg h]

/-- `parseDictTail` on a non-`}` head parses the member list. -/
theorem parseDictTail_go (f : Nat) (c : Char) (r : List Char) (h : c ≠ '}') :
    parseDictTail (f + 1) (c :: r) =
      (parseMembers f (c :: r)).map fun p => (PyVal.dict p.1, p.2) := by
  change (if c = '}' then Except.ok (PyVal.dict [], r)
      else (parseMembers f (c :: r)).map fun p => (PyVal.dict p.1, p.2)) = _
  rw [if_neg h]

/-- The printed tail after an array element starts safely. -/
theorem restSafe_elems (xs : List PyVal) (rest : List Char) :
    restSafe (dumpElems xs ++ ']' :: rest) = true := by
  cases xs with
  | nil => rfl
  | cons y ys => rfl

/-- The printed tail after an object member starts safely. -/
theorem restSafe_members (xs : List (String × PyVal)) (rest : List Char) :
    restSafe (dumpMembers xs ++ '}' :: rest) = true := by
  cases xs with
  | nil => rfl
  | cons y ys => obtain ⟨k, v⟩ := y; rfl

/-! ### The printer–decoder round trip -/

mutual

/-- The decoder inverts the printer on well-formed values. -/
theorem rtVal : ∀ (v : PyVal) (fuel : Nat) (rest : List Char),
    wfSer v = true → fuelVal v ≤ fuel → restSafe rest = true →
    parseVal fuel (dumpVal v ++ rest) = .ok (v, rest)
  | .none, fuel, rest => fun _ hfuel _ => by
      have hf : 2 ≤ fuel := by simpa [fuelVal] using hfuel
      obtain ⟨f, rfl⟩ : ∃ f, fuel = f + 2 := ⟨fuel - 2, by omega⟩
      rw [show f + 2 = (f + 1) + 1 from rfl, parseVal_succ,
        show dumpVal PyVal.none ++ rest = 'n' :: 'u' :: 'l' :: 'l' :: rest from rfl,
        skipWs_not_ws _ (by decide)]
      rfl
  | .bool true, fuel, rest => fun _ hfuel _ => by
      have hf : 2 ≤ fuel := by simpa [fuelVal] using hfuel
      obtain ⟨f, rfl⟩ : ∃ f, fuel = f + 2 := ⟨fuel - 2, by omega⟩
      rw [show f + 2 = (f + 1) + 1 from rfl, parseVal_succ,
        show dumpVal (PyVal.bool true) ++ rest = 't' :: 'r' :: 'u' :: 'e' :: rest from rfl,
        skipWs_not_ws _ (by decide)]
      rfl
  | .bool false, fuel, rest => fun _ hfuel _ => by
      have hf : 2 ≤ fuel := by simpa [fuelVal] using hfuel
      obtain ⟨f, rfl⟩ : ∃ f, fuel = f + 2 := ⟨fuel - 2, by omega⟩
      rw [show f + 2 = (f + 1) + 1 from rfl, parseVal_succ,
        show dumpVal (PyVal.bool false) ++ rest
          = 'f' :: 'a' :: 'l' :: 's' :: 'e' :: rest from rfl,
        skipWs_not_ws _ (by decide)]
      rfl
  | .int n, fuel, rest => fun _ hfuel hrest => by
      have hf : 2 ≤ fuel := by simpa [fuelVal] using hfuel
      obtain ⟨f, rfl⟩ : ∃ f, fuel = f + 2 := ⟨fuel - 2, by omega⟩
      obtain ⟨c, r, heq, hd⟩ := intChars_head n
      have hws : jsonWsB c = false := (numStart_facts hd).2.2.2.2.2.2.1
      rw [show f + 2 = (f + 1) + 1 from rfl, parseVal_succ,
        show dumpVal (PyVal.int n) = intChars n from rfl, heq, List.cons_append,
        skipWs_not_ws _ hws, parseValCore_num f c _ hd, ← List.cons_append, ← heq,
        parseNum_int n rest hrest]
  | .float lit, fuel, rest => fun hwf hfuel hrest => by
      have hlit : isFloatLitChars lit.data = true := by
        simpa [wfSer, isFloatLit] using hwf
      have hf : 2 ≤ fuel := by simpa [fuelVal] using hfuel
      obtain ⟨f, rfl⟩ : ∃ f, fuel = f + 2 := ⟨fuel - 2, by omega⟩
      obtain ⟨c, r, heq, hd⟩ := floatLit_head hlit
      have hws : jsonWsB c = false := (numStart_facts hd).2.2.2.2.2.2.1
      rw [show f + 2 = (f + 1) + 1 from rfl, parseVal_succ,
        show dumpVal (PyVal.float lit) = lit.data from rfl, heq, List.cons_append,
        skipWs_not_ws _ hws, parseValCore_num f c _ hd, ← List.cons_append, ← heq,
        parseNum_float lit rest (by rw [isFloatLit]; exact hlit) hrest]
  | .str s, fuel, rest => fun _ hfuel _ => by
      have hf : 2 ≤ fuel := by simpa [fuelVal] using hfuel
      obtain ⟨f, rfl⟩ : ∃ f, fuel = f + 2 := ⟨fuel - 2, by omega⟩
      rw [show f + 2 = (f + 1) + 1 from rfl, parseVal_succ,
        show dumpVal (PyVal.str s) ++ rest
          = '"' :: (escList s.data ++ '"' :: rest) from by
            simp [dumpVal, List.append_assoc],
        skipWs_not_ws _ (by decide),
        show parseValCore (f + 1) ('"' :: (escList s.data ++ '"' :: rest))
          = (parseStrBody (escList s.data ++ '"' :: rest)).map
              (fun p => (PyVal.str ⟨p.1⟩, p.2)) from rfl,
        rtStrBody]
      rfl
  | .list [], fuel, rest => fun _ hfuel _ => by
      have hf : 3 ≤ fuel := by simpa [fuelVal, fuelElems] using hfuel
      obtain ⟨f, rfl⟩ : ∃ f, fuel = f + 3 := ⟨fuel - 3, by omega⟩
      rw [show f + 3 = (f + 2) + 1 from rfl, parseVal_succ,
        show dumpVal (PyVal.list []) ++ rest = '[' :: ']' :: rest from rfl,
        skipWs_not_ws _ (by decide),
        show parseValCore (f + 2) ('[' :: ']' :: rest)
          = parseListTail (f + 1) (skipWs (']' :: rest)) from rfl,
        skipWs_not_ws _ (by decide)]
      rfl
  | .list (x :: xs), fuel, rest => fun hwf hfuel hrest => by
      rw [show wfSer (PyVal.list (x :: xs)) = (wfSer x && wfSerList xs) from rfl,
        Bool.and_eq_true] at hwf
      obtain ⟨hwx, hwxs⟩ := hwf
      have hfe : 3 + (2 + fuelVal x + fuelElems xs) ≤ fuel := by
        simpa [fuelVal, fuelElems] using hfuel
      obtain ⟨f, rfl⟩ : ∃ f, fuel = f + 3 := ⟨fuel - 3, by omega⟩
      obtain ⟨cx, rx, heq, hwsx, hnbr, _, _, _⟩ := dumpVal_shape x hwx
      rw [show f + 3 = (f + 2) + 1 from rfl, parseVal_succ,
        show dumpVal (PyVal.list (x :: xs)) ++ rest
          = '[' :: (dumpVal x ++ (dumpElems xs ++ ']' :: rest)) from by
            simp [dumpVal, List.append_assoc],
        skipWs_not_ws _ (by decide),
        show parseValCore (f + 2) ('[' :: (dumpVal x ++ (dumpElems xs ++ ']' :: rest)))
          = parseListTail (f + 1) (skipWs (dumpVal x ++ (dumpElems xs ++ ']' :: rest)))
          from rfl,
        heq, List.cons_append, skipWs_not_ws _ hwsx,
        parseListTail_go f cx _ hnbr, ← List.cons_append, ← heq,
        ← List.append_assoc,
        show dumpVal x ++ dumpElems xs = dumpElemsNE (x :: xs) from rfl,
        rtElems (x :: xs) f rest (by simp)
          (by rw [show wfSerList (x :: xs) = (wfSer x && wfSerList xs) from rfl,
                Bool.and_eq_true]; exact ⟨hwx, hwxs⟩)
          (by simp only [fuelElems]; omega) hrest]
      rfl
  | .dict [], fuel, rest => fun _ hfuel _ => by
      have hf : 3 ≤ fuel := by simpa [fuelVal, fuelMembers] using hfuel
      obtain ⟨f, rfl⟩ : ∃ f, fuel = f + 3 := ⟨fuel - 3, by omega⟩
      rw [show f + 3 = (f + 2) + 1 from rfl, parseVal_succ,
        show dumpVal (PyVal.dict []) ++ rest = '{' :: '}' :: rest from rfl,
        skipWs_not_ws _ (by decide),
        show parseValCore (f + 2) ('{' :: '}' :: rest)
          = parseDictTail (f + 1) (skipWs ('}' :: rest)) from rfl,
        skipWs_not_ws _ (by decide)]
      rfl
  | .dict ((k, v) :: xs), fuel, rest => fun hwf hfuel hrest => by
      rw [show wfSer (PyVal.dict ((k, v) :: xs)) = (wfSer v && wfSerDict xs) from rfl,
        Bool.and_eq_true] at hwf
      obtain ⟨hwv, hwxs⟩ := hwf
      have hfe : 3 + (4 + fuelVal v + fuelMembers xs) ≤ fuel := by
        simpa [fuelVal, fuelMembers] using hfuel
      obtain ⟨f, rfl⟩ : ∃ f, fuel = f + 3 := ⟨fuel - 3, by omega⟩
      rw [show f + 3 = (f + 2) + 1 from rfl, parseVal_succ,
        show dumpVal (PyVal.dict ((k, v) :: xs)) ++ rest
          = '{' :: (dumpMembersNE ((k, v) :: xs) ++ '}' :: rest) from by
            simp [dumpVal, dumpMembersNE, List.append_assoc],
        skipWs_not_ws _ (by decide),
        show parseValCore (f + 2) ('{' :: (dumpMembersNE ((k, v) :: xs) ++ '}' :: rest))
          = parseDictTail (f + 1) (skipWs (dumpMembersNE ((k, v) :: xs) ++ '}' :: rest))
          from rfl,
        show dumpMembersNE ((k, v) :: xs)
          = '"' :: (escList k.data ++ ['"', ':', ' '] ++ dumpVal v ++ dumpMembers xs)
          from rfl, List.cons_append, skipWs_not_ws _ (by decide),
        parseDictTail_go f _ _ (by decide), ← List.cons_append,
        show ('"' :: (escList k.data ++ ['"', ':', ' '] ++ dumpVal v ++ dumpMembers xs))
          = dumpMembersNE ((k, v) :: xs) from rfl,
        rtMembers ((k, v) :: xs) f rest (by simp)
          (by rw [show wfSerDict ((k, v) :: xs) = (wfSer v && wfSerDict xs) from rfl,
                Bool.and_eq_true]; exact ⟨hwv, hwxs⟩)
          (by simp only [fuelMembers]; omega) hrest]
      rfl
  | .pgObj i, fuel, rest => fun hwf _ _ => by
      rw [show wfSer (PyVal.pgObj i) = false from rfl] at hwf
      exact absurd hwf (by decide)

/-- The decoder inverts the printer on non-empty element lists. -/
theorem rtElems : ∀ (l : List PyVal) (fuel : Nat) (rest : List Char),
    l ≠ [] → wfSerList l = true → fuelElems l ≤ fuel → restSafe rest = true →
    parseElems fuel (dumpElemsNE l ++ ']' :: rest) = .ok (l, rest)
  | [], _, _ => fun hne _ _ _ => absurd rfl hne
  | x :: xs, fuel, rest => fun _ hwf hfuel hrest => by
      rw [show wfSerList (x :: xs) = (wfSer x && wfSerList xs) from rfl,
        Bool.and_eq_true] at hwf
      obtain ⟨hwx, hwxs⟩ := hwf
      have hfe : 2 + fuelVal x + fuelElems xs ≤ fuel := by
        simpa [fuelElems] using hfuel
      obtain ⟨f, rfl⟩ : ∃ f, fuel = f + 2 := ⟨fuel - 2, by omega⟩
      rw [show f + 2 = (f + 1) + 1 from rfl, parseElems_succ,
        show dumpElemsNE (x :: xs) = dumpVal x ++ dumpElems xs from rfl,
        List.append_assoc,
        rtVal x (f + 1) (dumpElems xs ++ ']' :: rest) hwx (by omega)
          (restSafe_elems xs rest)]
      cases xs with
      | nil =>
          rw [show (do
              let (v, r) ← Except.ok (ε := PyExc) (x, dumpElems [] ++ ']' :: rest)
              parseElemsRest (f + 1) v (skipWs r))
            = parseElemsRest (f + 1) x (skipWs (']' :: rest)) from rfl,
            skipWs_not_ws _ (by decide)]
          rfl
      | cons y ys =>
          have h2 : dumpElems (y :: ys) ++ ']' :: rest
              = ',' :: ' ' :: (dumpElemsNE (y :: ys) ++ ']' :: rest) := by
            rw [show dumpElems (y :: ys)
                = ',' :: ' ' :: (dumpVal y ++ dumpElems ys) from rfl,
              show dumpElemsNE (y :: ys) = dumpVal y ++ dumpElems ys from rfl]
            simp [List.append_assoc]
          rw [h2,
            show (do
                let (v, r) ← Except.ok (ε := PyExc)
                  (x, ',' :: ' ' :: (dumpElemsNE (y :: ys) ++ ']' :: rest))
                parseElemsRest (f + 1) v (skipWs r))
              = parseElemsRest (f + 1) x
                  (skipWs (',' :: ' ' :: (dumpElemsNE (y :: ys) ++ ']' :: rest)))
              from rfl,
            skipWs_not_ws _ (by decide),
            show parseElemsRest (f + 1) x
                (',' :: ' ' :: (dumpElemsNE (y :: ys) ++ ']' :: rest))
              = (parseElems f (' ' :: (dumpElemsNE (y :: ys) ++ ']' :: rest))).map
                  (fun p => (x :: p.1, p.2)) from rfl,
            parseElems_space,
            rtElems (y :: ys) f rest (by simp) hwxs
              (by simp only [fuelElems] at hfe ⊢; omega) hrest]
          rfl

/-- The decoder inverts the printer on non-empty member lists. -/
theorem rtMembers : ∀ (l : List (String × PyVal)) (fuel : Nat) (rest : List Char),
    l ≠ [] → wfSerDict l = true → fuelMembers l ≤ fuel → restSafe rest = true →
    parseMembers fuel (dumpMembersNE l ++ '}' :: rest) = .ok (l, rest)
  | [], _, _ => fun hne _ _ _ => absurd rfl hne
  | (k, v) :: xs, fuel, rest => fun _ hwf hfuel hrest => by
      rw [show wfSerDict ((k, v) :: xs) = (wfSer v && wfSerDict xs) from rfl,
        Bool.and_eq_true] at hwf
      obtain ⟨hwv, hwxs⟩ := hwf
      have hfe : 4 + fuelVal v + fuelMembers xs ≤ fuel := by
        simpa [fuelMembers] using hfuel
      obtain ⟨f, rfl⟩ : ∃ f, fuel = f + 4 := ⟨fuel - 4, by omega⟩
      rw [show f + 4 = (f + 3) + 1 from rfl, parseMembers_succ,
        show dumpMembersNE ((k, v) :: xs) ++ '}' :: rest
          = '"' :: (escList k.data
              ++ '"' :: ':' :: ' ' :: (dumpVal v ++ (dumpMembers xs ++ '}' :: rest)))
          from by
            rw [show dumpMembersNE ((k, v) :: xs)
              = '"' :: (escList k.data ++ ['"', ':', ' '] ++ dumpVal v ++ dumpMembers xs)
              from rfl]
            simp [List.append_assoc],
        skipWs_not_ws _ (by decide),
        show parseMembersKey (f + 3)
            ('"' :: (escList k.data
              ++ '"' :: ':' :: ' ' :: (dumpVal v ++ (dumpMembers xs ++ '}' :: rest))))
          = (do
              let (k2, r1) ← parseStrBody (escList k.data
                ++ '"' :: ':' :: ' ' :: (dumpVal v ++ (dumpMembers xs ++ '}' :: rest)))
              parseMembersColon (f + 2) ⟨k2⟩ (skipWs r1)) from rfl,
        rtStrBody,
        show (do
            let (k2, r1) ← Except.ok (ε := PyExc)
              (k.data, ':' :: ' ' :: (dumpVal v ++ (dumpMembers xs ++ '}' :: rest)))
            parseMembersColon (f + 2) ⟨k2⟩ (skipWs r1))
          = parseMembersColon (f + 2) ⟨k.data⟩
              (skipWs (':' :: ' ' :: (dumpVal v ++ (dumpMembers xs ++ '}' :: rest))))
          from rfl,
        stringEta, skipWs_not_ws _ (by decide),
        show parseMembersColon (f + 2) k
            (':' :: ' ' :: (dumpVal v ++ (dumpMembers xs ++ '}' :: rest)))
          = (do
              let (v2, r3) ← parseVal (f + 1)
                (' ' :: (dumpVal v ++ (dumpMembers xs ++ '}' :: rest)))
              parseMembersRest (f + 1) k v2 (skipWs r3)) from rfl,
        parseVal_space,
        rtVal v (f + 1) (dumpMembers xs ++ '}' :: rest) hwv (by omega)
          (restSafe_members xs rest)]
      cases xs with
      | nil =>
          rw [show (do
              let (v2, r3) ← Except.ok (ε := PyExc) (v, dumpMembers [] ++ '}' :: rest)
              parseMembersRest (f + 1) k v2 (skipWs r3))
            = parseMembersRest (f + 1) k v (skipWs ('}' :: rest)) from rfl,
            skipWs_not_ws _ (by decide)]
          rfl
      | cons y ys =>
          obtain ⟨k2, v2⟩ := y
          have h2 : dumpMembers ((k2, v2) :: ys) ++ '}' :: rest
              = ',' :: ' ' :: (dumpMembersNE ((k2, v2) :: ys) ++ '}' :: rest) := by
            rw [show dumpMembers ((k2, v2) :: ys)
                = ',' :: ' ' :: '"' :: escList k2.data ++ ['"', ':', ' ']
                    ++ dumpVal v2 ++ dumpMembers ys from rfl,
              show dumpMembersNE ((k2, v2) :: ys)
                = '"' :: (escList k2.data ++ ['"', ':', ' ']
                    ++ dumpVal v2 ++ dumpMembers ys) from rfl]
            simp [List.append_assoc]
          rw [h2,
            show (do
                let (v2', r3) ← Except.ok (ε := PyExc)
                  (v, ',' :: ' ' :: (dumpMembersNE ((k2, v2) :: ys) ++ '}' :: rest))
                parseMembersRest (f + 1) k v2' (skipWs r3))
              = parseMembersRest (f + 1) k v
                  (skipWs (',' :: ' ' :: (dumpMembersNE ((k2, v2) :: ys) ++ '}' :: rest)))
              from rfl,
            skipWs_not_ws _ (by decide),
            show parseMembersRest (f + 1) k v
                (',' :: ' ' :: (dumpMembersNE ((k2, v2) :: ys) ++ '}' :: rest))
              = (parseMembers f (' ' :: (dumpMembersNE ((k2, v2) :: ys) ++ '}' :: rest))).map
                  (fun p => ((k, v) :: p.1, p.2)) from rfl,
            parseMembers_space,
            rtMembers ((k2, v2) :: ys) f rest (by simp) hwxs
              (by simp only [fuelMembers] at hfe ⊢; omega) hrest]
          rfl

end

/-! ### Lemmas: fuel bounds and the `json.dumps` / `json.loads` round trip -/

mutual

/-- The fuel needed by a printed value is within the budget `jsonLoads`
computes from the text length. -/
theorem fuelVal_le : ∀ (v : PyVal), wfSer v = true →
    fuelVal v ≤ 3 * (dumpVal v).length + 1
  | .none, _ => by simp [fuelVal, dumpVal]
  | .bool b, _ => by cases b <;> simp [fuelVal, dumpVal]
  | .int n, _ => by
      obtain ⟨c, r, heq, _⟩ := intChars_head n
      rw [show dumpVal (PyVal.int n) = intChars n from rfl, heq]
      simp [fuelVal]
      omega
  | .float lit, h => by
      have hne : lit.data ≠ [] :=
        isFloatLitChars_ne_nil (by simpa [wfSer, isFloatLit] using h)
      rcases hd : lit.data with _ | ⟨c, r⟩
      · exact absurd hd hne
      · rw [show dumpVal (PyVal.float lit) = lit.data from rfl, hd]
        simp [fuelVal]
        omega
  | .str s, _ => by
      rw [show dumpVal (PyVal.str s) = '"' :: escList s.data ++ ['"'] from rfl]
      simp [fuelVal]
      omega
  | .list [], _ => by simp [fuelVal, fuelElems, dumpVal]
  | .list (x :: xs), h => by
      rw [show wfSer (PyVal.list (x :: xs)) = (wfSer x && wfSerList xs) from rfl,
        Bool.and_eq_true] at h
      have h1 := fuelVal_le x h.1
      have h2 := fuelElems_le xs h.2
      rw [show fuelVal (PyVal.list (x :: xs))
          = 3 + (2 + fuelVal x + fuelElems xs) from rfl,
        show dumpVal (PyVal.list (x :: xs))
          = '[' :: dumpVal x ++ dumpElems xs ++ [']'] from rfl]
      simp only [List.length_append, List.length_cons, List.length_singleton]
      omega
  | .dict [], _ => by simp [fuelVal, fuelMembers, dumpVal]
  | .dict ((k, v) :: xs), h => by
      rw [show wfSer (PyVal.dict ((k, v) :: xs)) = (wfSer v && wfSerDict xs) from rfl,
        Bool.and_eq_true] at h
      have h1 := fuelVal_le v h.1
      have h2 := fuelMembers_le xs h.2
      rw [show fuelVal (PyVal.dict ((k, v) :: xs))
          = 3 + (4 + fuelVal v + fuelMembers xs) from rfl,
        show dumpVal (PyVal.dict ((k, v) :: xs))
          = '{' :: '"' :: escList k.data ++ ['"', ':', ' ']
              ++ dumpVal v ++ dumpMembers xs ++ ['}'] from rfl]
      simp only [List.length_append, List.length_cons, List.length_singleton]
      omega
  | .pgObj i, h => by
      rw [show wfSer (PyVal.pgObj i) = false from rfl] at h
      exact absurd h (by decide)

/-- Fuel bound for element tails. -/
theorem fuelElems_le : ∀ (xs : List PyVal), wfSerList xs = true →
    fuelElems xs ≤ 3 * (dumpElems xs).length
  | [], _ => by simp [fuelElems, dumpElems]
  | x :: xs, h => by
      rw [show wfSerList (x :: xs) = (wfSer x && wfSerList xs) from rfl,
        Bool.and_eq_true] at h
      have h1 := fuelVal_le x h.1
      have h2 := fuelElems_le xs h.2
      rw [show fuelElems (x :: xs) = 2 + fuelVal x + fuelElems xs from rfl,
        show dumpElems (x :: xs)
          = ',' :: ' ' :: dumpVal x ++ dumpElems xs from rfl]
      simp only [List.length_append, List.length_cons]
      omega

/-- Fuel bound for member tails. -/
theorem fuelMembers_le : ∀ (xs : List (String × PyVal)), wfSerDict xs = true →
    fuelMembers xs ≤ 3 * (dumpMembers xs).length
  | [], _ => by simp [fuelMembers, dumpMembers]
  | (k, v) :: xs, h => by
      rw [show wfSerDict ((k, v) :: xs) = (wfSer v && wfSerDict xs) from rfl,
        Bool.and_eq_true] at h
      have h1 := fuelVal_le v h.1
      have h2 := fuelMembers_le xs h.2
      rw [show fuelMembers ((k, v) :: xs) = 4 + fuelVal v + fuelMembers xs from rfl,
        show dumpMembers ((k, v) :: xs)
          = ',' :: ' ' :: '"' :: escList k.data ++ ['"', ':', ' ']
              ++ dumpVal v ++ dumpMembers xs from rfl]
      simp only [List.length_append, List.length_cons]
      omega

end

/-- `json.loads` decodes exactly what the printer produced. -/
theorem jsonLoads_dump (v : PyVal) (h : wfSer v = true) :
    jsonLoads ⟨dumpVal v⟩ = .ok v := by
  rw [jsonLoads]
  have h1 : parseVal (3 * (dumpVal v).length + 4) (dumpVal v ++ []) = .ok (v, []) :=
    rtVal v _ [] h (by have := fuelVal_le v h; omega) rfl
  rw [List.append_nil] at h1
  rw [show (⟨dumpVal v⟩ : String).data = dumpVal v from rfl, h1]
  rfl

mutual

/-- Well-formed values contain no `PageGroup` objects. -/
theorem hasPg_of_wf : ∀ (v : PyVal), wfSer v = true → hasPg v = false
  | .none, _ => rfl
  | .bool _, _ => rfl
  | .int _, _ => rfl
  | .float _, _ => rfl
  | .str _, _ => rfl
  | .list xs, h => by
      rw [show wfSer (PyVal.list xs) = wfSerList xs from rfl] at h
      rw [show hasPg (PyVal.list xs) = hasPgList xs from rfl, hasPgList_of_wf xs h]
  | .dict xs, h => by
      rw [show wfSer (PyVal.dict xs) = wfSerDict xs from rfl] at h
      rw [show hasPg (PyVal.dict xs) = hasPgDict xs from rfl, hasPgDict_of_wf xs h]
  | .pgObj i, h => by
      rw [show wfSer (PyVal.pgObj i) = false from rfl] at h
      exact absurd h (by decide)

/-- `hasPg_of_wf` over list elements. -/
theorem hasPgList_of_wf : ∀ (xs : List PyVal), wfSerList xs = true →
    hasPgList xs = false
  | [], _ => rfl
  | x :: xs, h => by
      rw [show wfSerList (x :: xs) = (wfSer x && wfSerList xs) from rfl,
        Bool.and_eq_true] at h
      rw [show hasPgList (x :: xs) = (hasPg x || hasPgList xs) from rfl,
        hasPg_of_wf x h.1, hasPgList_of_wf xs h.2]
      rfl

/-- `hasPg_of_wf` over dict values. -/
theorem hasPgDict_of_wf : ∀ (xs : List (String × PyVal)), wfSerDict xs = true →
    hasPgDict xs = false
  | [], _ => rfl
  | (k, v) :: xs, h => by
      rw [show wfSerDict ((k, v) :: xs) = (wfSer v && wfSerDict xs) from rfl,
        Bool.and_eq_true] at h
      rw [show hasPgDict ((k, v) :: xs) = (hasPg v || hasPgDict xs) from rfl,
        hasPg_of_wf v h.1, hasPgDict_of_wf xs h.2]
      rfl

end

/-- `json.dumps` succeeds on well-formed values. -/
theorem jsonDumps_wf (v : PyVal) (h : wfSer v = true) :
    jsonDumps v = .ok ⟨dumpVal v⟩ := by
  rw [jsonDumps, hasPg_of_wf v h]
  rfl

/-- The `json` round trip on well-formed values. -/
theorem jsonLoads_of_dumps {v : PyVal} {s : String} (h : wfSer v = true)
    (hd : jsonDumps v = .ok s) : jsonLoads s = .ok v := by
  rw [jsonDumps_wf v h] at hd
  injection hd with hd
  rw [← hd]
  exact jsonLoads_dump v h

/-! ### Claim theorems -/

/-- C5: Parsing the four sample command bodies yields exactly the documented
records: `assignment:42:7:99`, `message:1:2:default:Hi`, `popup:5:hello`, and
the unknown-command path for `foo:bar` carrying only the command token. -/
theorem C5_command_parsing_examples :
    on_message allHandlers "chat" "assignment:42:7:99" =
      .dispatched "assignment_handler"
        [("command", "assignment"), ("device_id", "42"), ("agency_id", "7"),
         ("assignment_id", "99")] ∧
    on_message allHandlers "chat" "message:1:2:default:Hi" =
      .dispatched "message_handler"
        [("command", "message"), ("message_id", "1"), ("alert_id", "2"),
         ("sound", "default"), ("message", "Hi")] ∧
    on_message allHandlers "chat" "popup:5:hello" =
      .dispatched "popup_handler"
        [("command", "popup"), ("device_id", "5"), ("message", "hello")] ∧
    on_message allHandlers "chat" "foo:bar" =
      .dispatched "unknown_command_handler" [("command", "foo")] :=
  ⟨rfl, rfl, rfl, rfl⟩

/-- C2 (counterexample): on the short body `assignment:42` the handler does
index out of range — the caught exception is `IndexError`, not a distinct
malformed-input `ParseError` (no such error exists in the code's taxonomy),
and nothing is signalled to the caller. -/
theorem C2_counterexample :
    pySplitSep ':' "assignment:42" = ["assignment", "42"] ∧
    on_message allHandlers "chat" "assignment:42" = .caught .indexError :=
  ⟨rfl, rfl⟩

/-- C2 (amended): whenever the first token selects a known command kind and
fewer colon-delimited tokens are present than that kind reads, the handler
raises `IndexError` while building the record, and its blanket `except`
catches and logs it — deterministically, but with no distinct ParseError and
nothing propagated to the caller. -/
theorem C2_short_commands_raise_IndexError (h : Handlers) (cs : List String)
    (cmd : String) (n : Nat) (hhead : cs.head? = some cmd)
    (hreq : requiredComponents cmd = some n) (hlen : cs.length < n) :
    onMessageComponents h cs = .caught .indexError := by
  cases cs with
  | nil => simp at hhead
  | cons c cs' =>
      have hc : c = cmd := by simpa using hhead
      subst hc
      rw [requiredComponents] at hreq
      by_cases h1 : c = "assignment"
      · subst h1
        rw [if_pos rfl] at hreq
        injection hreq with hn
        subst hn
        rcases cs' with _ | ⟨a, _ | ⟨b, _ | ⟨d, t⟩⟩⟩
        · rfl
        · rfl
        · rfl
        · simp only [List.length_cons] at hlen; omega
      · rw [if_neg h1] at hreq
        by_cases h2 : c = "message"
        · subst h2
          rw [if_pos rfl] at hreq
          injection hreq with hn
          subst hn
          rcases cs' with _ | ⟨a, _ | ⟨b, _ | ⟨d, _ | ⟨e, t⟩⟩⟩⟩
          · rfl
          · rfl
          · rfl
          · rfl
          · simp only [List.length_cons] at hlen; omega
        · rw [if_neg h2] at hreq
          by_cases h3 : c = "response"
          · subst h3
            rw [if_pos rfl] at hreq
            injection hreq with hn
            subst hn
            rcases cs' with _ | ⟨a, _ | ⟨b, _ | ⟨d, t⟩⟩⟩
            · rfl
            · rfl
            · rfl
            · simp only [List.length_cons] at hlen; omega
          · rw [if_neg h3] at hreq
            by_cases h4 : c = "popup"
            · subst h4
              rw [if_pos rfl] at hreq
              injection hreq with hn
              subst hn
              rcases cs' with _ | ⟨a, _ | ⟨b, t⟩⟩
              · rfl
              · rfl
              · simp only [List.length_cons] at hlen; omega
            · rw [if_neg h4] at hreq
              exact absurd hreq (by simp)

/-- C2 (witness): the amended theorem at the concrete short body. -/
theorem C2_witness :
    onMessageComponents allHandlers ["assignment", "42"] = .caught .indexError :=
  C2_short_commands_raise_IndexError allHandlers ["assignment", "42"]
    "assignment" 4 rfl rfl (by decide)

/-- C6: with `max_reconnect_attempts = 3` and `reconnect_delay = 2`, four
disconnection events produce reconnect waits of exactly 2, 4 and 6 seconds
(the n-th attempt waits n·delay — linear backoff); on the 4th attempt the
supervisor invokes the error handler exactly once and makes no further
connect call. -/
theorem C6_linear_backoff_and_stop :
    xmppRun ⟨3, 2⟩ ⟨true, 0⟩
        [.disconnected [true], .disconnected [true], .disconnected [true],
         .disconnected []] =
      (⟨false, 4⟩,
       [.discHandlerCall, .reconnectEnter, .sleep 2, .connectCall,
        .discHandlerCall, .reconnectEnter, .sleep 4, .connectCall,
        .discHandlerCall, .reconnectEnter, .sleep 6, .connectCall,
        .discHandlerCall, .reconnectEnter,
        .errorHandlerCall "Max reconnect attempts reached"]) ∧
    sleepSecs (xmppRun ⟨3, 2⟩ ⟨true, 0⟩
        [.disconnected [true], .disconnected [true], .disconnected [true],
         .disconnected []]).2 = [2, 4, 6] ∧
    countErrorCalls (xmppRun ⟨3, 2⟩ ⟨true, 0⟩
        [.disconnected [true], .disconnected [true], .disconnected [true],
         .disconnected []]).2 = 1 ∧
    countConnects (afterFirstErrorCall (xmppRun ⟨3, 2⟩ ⟨true, 0⟩
        [.disconnected [true], .disconnected [true], .disconnected [true],
         .disconnected []]).2) = 0 :=
  ⟨rfl, rfl, rfl, rfl⟩

/-- C7: the reconnect counter resets to zero on every session start; each
`try_reconnect` invocation increments it by exactly one; and once the counter
exceeds `max_reconnect_attempts`, no raw connect call is ever made again
across any further events that contain no session start. -/
theorem C7_counter_invariant :
    (∀ (s : XmppSettings) (st : XmppState),
      (xmppStep s st .session_start).1.reconnect_attempts = 0) ∧
    (∀ (s : XmppSettings) (a : Nat) (o : List Bool),
      (try_reconnect s a o).1 = a + countEnter (try_reconnect s a o).2) ∧
    (∀ (s : XmppSettings) (st : XmppState) (evs : List XEvent),
      s.max_reconnect_attempts < st.reconnect_attempts →
      (∀ e ∈ evs, e ≠ XEvent.session_start) →
      countConnects (xmppRun s st evs).2 = 0) := by
  refine ⟨fun s st => rfl, ?_, ?_⟩
  · intro s a o
    induction o generalizing a with
    | nil =>
        rw [try_reconnect]
        by_cases hc : s.max_reconnect_attempts < a + 1 <;>
          simp [hc, countEnter]
    | cons b rest ih =>
        rw [try_reconnect]
        by_cases hc : s.max_reconnect_attempts < a + 1
        · simp [hc, countEnter]
        · cases b
          · have := ih (a + 1)
            simp only [if_neg hc, Bool.false_eq_true, if_false]
            simp [countEnter, this]
            omega
          · simp [hc, countEnter]
  · intro s st evs h1 h2
    induction evs generalizing st with
    | nil => rfl
    | cons e es ih =>
        cases e with
        | connectedEv =>
            rw [xmppRun]
            have : countConnects (xmppRun s { st with connected := true } es).2 = 0 :=
              ih _ h1 (fun e he => h2 e (by simp [he]))
            simpa [xmppStep, countConnects] using this
        | session_start => exact absurd rfl (h2 .session_start (by simp))
        | disconnected o =>
            rw [xmppRun]
            have htr : try_reconnect s st.reconnect_attempts o
                = (st.reconnect_attempts + 1,
                   [.reconnectEnter, .errorHandlerCall "Max reconnect attempts reached"]) := by
              cases o with
              | nil => rw [try_reconnect, if_pos (by omega)]
              | cons b rest => rw [try_reconnect, if_pos (by omega)]
            have hnext : countConnects (xmppRun s
                ⟨false, st.reconnect_attempts + 1⟩ es).2 = 0 :=
              ih _ (by simp; omega) (fun e he => h2 e (by simp [he]))
            simp [xmppStep, htr, countConnects, hnext]

/-- C7 (witness): the invariant instantiated past the ceiling. -/
theorem C7_witness :
    countConnects (xmppRun ⟨3, 2⟩ ⟨false, 4⟩
      [.disconnected [], .disconnected [false, false]]).2 = 0 :=
  C7_counter_invariant.2.2 ⟨3, 2⟩ ⟨false, 4⟩
    [.disconnected [], .disconnected [false, false]] (by decide) (by decide)

/-- Bind of a successful `Except` step. -/
theorem exceptBind_ok {α β : Type} (a : α) (f : α → Except PyExc β) :
    (Except.ok a >>= f) = f a := rfl

/-- `pure` on `Except` is `ok`. -/
theorem exceptPure {α : Type} (a : α) : (pure a : Except PyExc α) = .ok a := rfl

/-- Helper: with the shared session closed, the `try` body of `post_request`
always raises (`aiohttp` refuses to post on a closed session). -/
theorem postRequestTry_closed (st : ClientState) (data : PyVal) (t : Transport)
    (h : st.sessionOpen = false) : ∃ e, postRequestTry st data t = .error e := by
  rw [postRequestTry.eq_def]
  cases hop : pyGetItem data "operation" with
  | error e => exact ⟨e, rfl⟩
  | ok x => exact ⟨.runtimeError "Session is closed", by rw [h]; rfl⟩

/-- C1 (counterexample): a registration response whose result is
`Unauthorized` makes `register_device` raise `Active911ConnectionError`, not
`Active911AuthenticationError` — both for the literal `{result:
"Unauthorized"}` response and when a `message: "Unauthorized"` field is
present (the authentication error raised inside `post_request` is caught by
its own blanket `except` and re-wrapped). -/
theorem C1_counterexample :
    isAuthErrorU (register_device sampleClient
        (.json (.dict [("result", .str "Unauthorized")]))).2 = false ∧
    isConnErrorU (register_device sampleClient
        (.json (.dict [("result", .str "Unauthorized")]))).2 = true ∧
    isAuthErrorU (register_device sampleClient
        (.json (.dict [("result", .str "Unauthorized"),
                       ("message", .str "Unauthorized")]))).2 = false ∧
    isConnErrorU (register_device sampleClient
        (.json (.dict [("result", .str "Unauthorized"),
                       ("message", .str "Unauthorized")]))).2 = true :=
  ⟨rfl, rfl, rfl, rfl⟩

/-- C1 (amended): on any non-success response whose `message` field is
`"Unauthorized"`, `post_request` raises `Active911AuthenticationError`
internally, but its own `except Exception` (and `register_device`'s) re-wraps
it, so the caller of `register_device` observes
`Active911ConnectionError` — never the authentication-specific error and
never the generic API error. -/
theorem C1_unauthorized_rewrapped (st : ClientState) (v r : PyVal)
    (hopen : st.sessionOpen = true)
    (hres : pyGetItem v "result" = .ok r)
    (hfail : PyVal.beq r (.str "success") = false)
    (hmsg : pyGetItem v "message" = .ok (.str "Unauthorized")) :
    postRequestTry st (registerData st) (.json v)
        = .error (.authError "API Error: Unauthorized") ∧
    isConnErrorU (register_device st (.json v)).2 = true ∧
    isAuthErrorU (register_device st (.json v)).2 = false ∧
    isApiErrorU (register_device st (.json v)).2 = false := by
  have htry : postRequestTry st (registerData st) (.json v)
      = .error (.authError "API Error: Unauthorized") := by
    rw [postRequestTry.eq_def]
    simp only [show pyGetItem (registerData st) "operation"
        = Except.ok (PyVal.str "register") from rfl,
      exceptBind_ok, hopen, Bool.not_true, Bool.false_eq_true, if_false,
      hres, hfail, hmsg]
    simp only [show PyVal.beq (.str "Unauthorized") (.str "Unauthorized") = true
        from by simp [PyVal.beq], if_true]
    rfl
  refine ⟨htry, ?_, ?_, ?_⟩ <;>
    simp [register_device, post_request, htry, isConnErrorU, isAuthErrorU,
      isApiErrorU]

/-- C1 (witness): the amended theorem at a concrete failing response. -/
theorem C1_witness :
    postRequestTry sampleClient (registerData sampleClient)
        (.json (.dict [("result", .str "error"),
                       ("message", .str "Unauthorized")]))
      = .error (.authError "API Error: Unauthorized") ∧
    isConnErrorU (register_device sampleClient
        (.json (.dict [("result", .str "error"),
                       ("message", .str "Unauthorized")]))).2 = true ∧
    isAuthErrorU (register_device sampleClient
        (.json (.dict [("result", .str "error"),
                       ("message", .str "Unauthorized")]))).2 = false ∧
    isApiErrorU (register_device sampleClient
        (.json (.dict [("result", .str "error"),
                       ("message", .str "Unauthorized")]))).2 = false :=
  C1_unauthorized_rewrapped sampleClient _ (.str "error") rfl rfl rfl rfl

/-- C9: every `post_request` invocation that does not return a success
result — transport failure, closed session, or any non-success API
response — propagates `Active911ConnectionError` (internally raised
authentication and generic API errors included), and the shared session is
closed before the exception propagates; consequently any request on a client
whose session is closed fails the same way. -/
theorem C9_failures_become_connection_errors :
    (∀ (st : ClientState) (data : PyVal) (t : Transport),
      isOkV (post_request st data t).2 = false →
      isConnError (post_request st data t).2 = true ∧
        (post_request st data t).1.sessionOpen = false) ∧
    (∀ (st : ClientState) (data : PyVal) (t : Transport),
      st.sessionOpen = false →
      isConnError (post_request st data t).2 = true ∧
        (post_request st data t).1.sessionOpen = false) := by
  have key : ∀ (st : ClientState) (data : PyVal) (t : Transport),
      isOkV (post_request st data t).2 = false →
      isConnError (post_request st data t).2 = true ∧
        (post_request st data t).1.sessionOpen = false := by
    intro st data t h
    rw [post_request] at h ⊢
    cases htry : postRequestTry st data t with
    | ok v => rw [htry] at h; simp [isOkV] at h
    | error e => exact ⟨rfl, rfl⟩
  refine ⟨key, fun st data t h => key st data t ?_⟩
  obtain ⟨e, he⟩ := postRequestTry_closed st data t h
  rw [post_request, he]
  rfl

/-- C9 (witness): a transport failure on a fresh client. -/
theorem C9_witness :
    isConnError (post_request sampleClient authData (.fail "network down")).2
        = true ∧
    (post_request sampleClient authData (.fail "network down")).1.sessionOpen
        = false :=
  C9_failures_become_connection_errors.1 sampleClient authData
    (.fail "network down") rfl

/-- C8 (counterexample): an init response that reports success but whose
`message` is `null` lacks the nested structure, yet `authenticate` does not
return silently — the `.get` chain raises `AttributeError` (`None` has no
`.get`), which is re-wrapped into `Active911ConnectionError`. -/
theorem C8_counterexample :
    isOkU (authenticate sampleClient
        (.json (.dict [("result", .str "success"),
                       ("message", PyVal.none)]))).2 = false ∧
    isConnErrorU (authenticate sampleClient
        (.json (.dict [("result", .str "success"),
                       ("message", PyVal.none)]))).2 = true :=
  ⟨rfl, rfl⟩

/-- C8 (amended): for a success response whose `message` → `device` → `info`
chain passes through dicts (missing keys defaulting to `{}`) and ends in a
falsy `info`, `authenticate` returns without raising, captures no
credentials, and leaves `is_authenticated` exactly as it was (false for a
fresh client); but an intermediate non-dict value (e.g. `message: null`)
raises `Active911ConnectionError` instead (see the counterexample). -/
theorem C8_missing_structure_silent (st : ClientState) (v m d info : PyVal)
    (hopen : st.sessionOpen = true)
    (hres : pyGetItem v "result" = .ok (.str "success"))
    (hm : pyGetDefault v "message" (.dict []) = .ok m)
    (hdev : pyGetDefault m "device" (.dict []) = .ok d)
    (hinfo : pyGetDefault d "info" PyVal.none = .ok info)
    (hfalsy : pyTruthy info = false) :
    authenticate st (.json v) = (st, .ok ()) := by
  have htry : postRequestTry st authData (.json v) = .ok v := by
    rw [postRequestTry.eq_def]
    simp only [show pyGetItem authData "operation"
        = Except.ok (PyVal.str "init") from rfl,
      exceptBind_ok, hopen, Bool.not_true, Bool.false_eq_true, if_false, hres]
    simp [PyVal.beq, exceptPure]
  have hpost : post_request st authData (.json v) = (st, .ok v) := by
    rw [post_request, htry]
  rw [authenticate, hpost]
  simp only [hm, hdev, hinfo, exceptBind_ok, hfalsy, Bool.false_eq_true,
    if_false, exceptPure]

/-- C8 (witness): the amended theorem on a success response with no
`message` key: the client state is unchanged, so `is_authenticated` stays
false and no credentials are captured. -/
theorem C8_witness :
    authenticate sampleClient (.json (.dict [("result", .str "success")]))
        = (sampleClient, .ok ()) ∧
    (authenticate sampleClient
        (.json (.dict [("result", .str "success")]))).1.is_authenticated = false ∧
    (authenticate sampleClient
        (.json (.dict [("result", .str "success")]))).1.user_id = Option.none := by
  have h := C8_missing_structure_silent sampleClient
    (.dict [("result", .str "success")]) (.dict []) (.dict []) PyVal.none
    rfl rfl rfl rfl rfl rfl
  refine ⟨h, ?_, ?_⟩ <;> rw [h] <;> rfl

/-- Helper: `dropWhile` is the identity when no element satisfies the
predicate. -/
theorem dropWhile_all_neg {p : Char → Bool} {l : List Char}
    (h : ∀ c ∈ l, p c = false) : l.dropWhile p = l := by
  cases l with
  | nil => rfl
  | cons c cs => simp [List.dropWhile_cons, h c (by simp)]

/-- Helper: `str.strip()` is the identity on whitespace-free strings. -/
theorem pyStrip_no_space (t : String) (h : ∀ c ∈ t.data, pyIsSpace c = false) :
    pyStrip t = t := by
  rw [pyStrip, pyStripChars, dropWhile_all_neg h,
    dropWhile_all_neg (fun c hc => h c (List.mem_reverse.mp hc)),
    List.reverse_reverse]

/-- Helper: every piece produced by no-argument `split()` is free of
whitespace characters. -/
theorem splitWSAux_no_space :
    ∀ (cs acc : List Char), (∀ c ∈ acc, pyIsSpace c = false) →
      ∀ t ∈ splitWSAux cs acc, ∀ c ∈ t.data, pyIsSpace c = false := by
  intro cs
  induction cs with
  | nil =>
      intro acc hacc t ht
      rw [splitWSAux] at ht
      by_cases he : acc.isEmpty
      · rw [if_pos he] at ht; simp at ht
      · rw [if_neg he] at ht
        simp only [List.mem_singleton] at ht
        subst ht
        intro c hc
        exact hacc c (List.mem_reverse.mp hc)
  | cons c cs ih =>
      intro acc hacc t ht
      rw [splitWSAux] at ht
      by_cases hsp : pyIsSpace c
      · rw [if_pos hsp] at ht
        by_cases he : acc.isEmpty
        · rw [if_pos he] at ht
          exact ih [] (by simp) t ht
        · rw [if_neg he] at ht
          rcases List.mem_cons.1 ht with ht | ht
          · subst ht
            intro x hx
            exact hacc x (List.mem_reverse.mp hx)
          · exact ih [] (by simp) t ht
      · rw [if_neg hsp] at ht
        refine ih (c :: acc) ?_ t ht
        intro x hx
        rcases List.mem_cons.1 hx with hx | hx
        · subst hx; simpa using hsp
        · exact hacc x hx

/-- C3 (counterexample): a `units` value supplied as a native list passes
through `__post_init__` unchanged — `[" a "]` stays `[" a "]`, which is not a
list of trimmed non-empty strings. -/
theorem C3_counterexample :
    (alertInit [("units", PyVal.list [PyVal.str " a "])]).map Active911Alert.units
        = .ok (.list [.str " a "]) ∧
    isTrimmedNonEmptyStrList (.list [.str " a "]) = false :=
  ⟨rfl, rfl⟩

/-- C3 (amended): a `units` value supplied as a whitespace-delimited string
is normalized to a list of trimmed non-empty strings, and a `None` value of
`units` or `response_vocabulary` becomes `[]`; but values supplied as native
lists are passed through unchanged — not trimmed or filtered (and a
string-supplied `response_vocabulary` is JSON-decoded with `[]` fallback, not
whitespace-split). -/
theorem C3_units_normalization :
    (∀ s : String, isTrimmedNonEmptyStrList (normalizeUnits (.str s)) = true) ∧
    normalizeUnits PyVal.none = .list [] ∧
    normalizeRespVocab PyVal.none = .list [] ∧
    (∀ l : List PyVal,
      normalizeUnits (.list l) = .list l ∧ normalizeRespVocab (.list l) = .list l) := by
  refine ⟨?_, rfl, rfl, fun l => ⟨rfl, rfl⟩⟩
  intro s
  rw [show normalizeUnits (.str s)
      = .list ((((pySplitWS s).map pyStrip).filter fun t => !(t = "")).map PyVal.str)
    from rfl]
  rw [isTrimmedNonEmptyStrList]
  rw [List.all_eq_true]
  intro u hu
  obtain ⟨t, ht, rfl⟩ := List.mem_map.1 hu
  obtain ⟨hne, hmem⟩ := And.intro (List.of_mem_filter ht) (List.mem_of_mem_filter ht)
  obtain ⟨tok, htok, rfl⟩ := List.mem_map.1 hmem
  have hfree : ∀ c ∈ tok.data, pyIsSpace c = false :=
    splitWSAux_no_space s.data [] (by simp) tok htok
  have hstrip : pyStrip tok = tok := pyStrip_no_space tok hfree
  rw [hstrip]
  rw [hstrip] at hne
  simp only [Bool.and_eq_true, Bool.not_eq_true']
  exact ⟨by simpa using hne, by simp [hstrip]⟩

/-- Helper: Python `==` against `None` holds exactly for `None`. -/
theorem beq_none_iff (v : PyVal) : PyVal.beq v PyVal.none = true ↔ v = PyVal.none := by
  cases v <;> simp [PyVal.beq]

/-- C10: `from_dict` on a payload containing a key that is not an alert field
and whose value is not `null` raises `TypeError` (unexpected keyword
argument), and `from_json` on the serialized form of such a payload raises
the same error — only missing keys and `null`-valued keys are tolerated. -/
theorem C10_unknown_key_raises (d : List (String × PyVal)) (k : String) (v : PyVal)
    (hmem : (k, v) ∈ d) (hv : v ≠ PyVal.none)
    (hk : alertFields.contains k = false) :
    from_dict (.dict d) = .error (.typeError "unexpected keyword argument") ∧
    ∀ s : String, wfSer (.dict d) = true → jsonDumps (.dict d) = .ok s →
      from_json s = .error (.typeError "unexpected keyword argument") := by
  have hmem2 : (k, v) ∈ d.filter (fun kv => !(PyVal.beq kv.2 .none)) := by
    rw [List.mem_filter]
    refine ⟨hmem, ?_⟩
    simp only [Bool.not_eq_true']
    cases hb : PyVal.beq v PyVal.none
    · rfl
    · exact absurd ((beq_none_iff v).1 hb) hv
  have hall : (d.filter (fun kv => !(PyVal.beq kv.2 .none))).all
      (fun kv => alertFields.contains kv.1) = false := by
    cases hy : (d.filter (fun kv => !(PyVal.beq kv.2 .none))).all
        (fun kv => alertFields.contains kv.1)
    · rfl
    · have := (List.all_eq_true.1 hy) (k, v) hmem2
      rw [hk] at this
      exact absurd this (by decide)
  have h1 : from_dict (.dict d) = .error (.typeError "unexpected keyword argument") := by
    rw [show from_dict (.dict d)
        = alertInit (d.filter fun kv => !(PyVal.beq kv.2 .none)) from rfl,
      alertInit, if_neg (by rw [hall]; exact Bool.false_ne_true)]
  refine ⟨h1, fun s hwf hd => ?_⟩
  rw [from_json, jsonLoads_of_dumps hwf hd]
  exact h1

/-- C10 (witness): a concrete unknown non-null key, both through `from_dict`
and through `from_json` on its serialized text. -/
theorem C10_witness :
    from_dict (.dict [("bogus", PyVal.int 1)])
        = .error (.typeError "unexpected keyword argument") ∧
    from_json "\x7b\"bogus\": 1\x7d"
        = .error (.typeError "unexpected keyword argument") := by
  have h := C10_unknown_key_raises [("bogus", PyVal.int 1)] "bogus" (.int 1)
    (by simp) (by simp) rfl
  exact ⟨h.1, h.2 "\x7b\"bogus\": 1\x7d" rfl rfl⟩

/-- Helper: shape of a value recognized as a string. -/
theorem isStrVal_ex {v : PyVal} (h : isStrVal v = true) : ∃ s, v = PyVal.str s := by
  cases v <;> first
    | exact ⟨_, rfl⟩
    | simp [isStrVal] at h

/-- Helper: shape of a value recognized as an int. -/
theorem isIntVal_ex {v : PyVal} (h : isIntVal v = true) : ∃ n, v = PyVal.int n := by
  cases v <;> first
    | exact ⟨_, rfl⟩
    | simp [isIntVal] at h

/-- Helper: shape of a value recognized as a well-formed float. -/
theorem isWfFloat_ex {v : PyVal} (h : isWfFloat v = true) :
    ∃ lit, v = PyVal.float lit ∧ isFloatLit lit = true := by
  cases v with
  | float lit => exact ⟨lit, rfl, h⟩
  | none => simp [isWfFloat] at h
  | bool b => simp [isWfFloat] at h
  | int n => simp [isWfFloat] at h
  | str s => simp [isWfFloat] at h
  | list xs => simp [isWfFloat] at h
  | dict xs => simp [isWfFloat] at h
  | pgObj i => simp [isWfFloat] at h

/-- Helper: shape of a value recognized as a list of strings. -/
theorem isStrList_ex {v : PyVal} (h : isStrList v = true) :
    ∃ xs, v = PyVal.list xs ∧ xs.all isStrVal = true := by
  cases v with
  | list xs => exact ⟨xs, rfl, h⟩
  | none => simp [isStrList] at h
  | bool b => simp [isStrList] at h
  | int n => simp [isStrList] at h
  | float lit => simp [isStrList] at h
  | str s => simp [isStrList] at h
  | dict xs => simp [isStrList] at h
  | pgObj i => simp [isStrList] at h

/-- Helper: shape of a value recognized as a list of page groups. -/
theorem isPgList_ex {v : PyVal} (h : isPgList v = true) :
    ∃ xs, v = PyVal.list xs ∧
      xs.all (fun u => match u with
        | PyVal.pgObj (PyVal.str _) => true
        | _ => false) = true := by
  cases v with
  | list xs => exact ⟨xs, rfl, h⟩
  | none => simp [isPgList] at h
  | bool b => simp [isPgList] at h
  | int n => simp [isPgList] at h
  | float lit => simp [isPgList] at h
  | str s => simp [isPgList] at h
  | dict xs => simp [isPgList] at h
  | pgObj i => simp [isPgList] at h

/-- Helper: a list of strings is serializable. -/
theorem strList_wf (xs : List PyVal) (h : xs.all isStrVal = true) :
    wfSerList xs = true := by
  induction xs with
  | nil => rfl
  | cons x xs ih =>
      rw [List.all_cons, Bool.and_eq_true] at h
      obtain ⟨s, rfl⟩ := isStrVal_ex h.1
      rw [show wfSerList (PyVal.str s :: xs)
          = (wfSer (PyVal.str s) && wfSerList xs) from rfl, ih h.2]
      rfl

/-- Helper: on a list of `PageGroup` objects with string ids, `to_dict`'s
page-group conversion succeeds and yields serializable dicts. -/
theorem pgToDictList_ok (xs : List PyVal)
    (h : xs.all (fun u => match u with
      | PyVal.pgObj (PyVal.str _) => true
      | _ => false) = true) :
    ∃ ds, pgToDictList (.list xs) = .ok ds ∧ wfSerList ds = true := by
  induction xs with
  | nil => exact ⟨[], rfl, rfl⟩
  | cons x xs ih =>
      rw [List.all_cons, Bool.and_eq_true] at h
      obtain ⟨ds, hds, hwf⟩ := ih h.2
      obtain ⟨s, rfl⟩ : ∃ s, x = PyVal.pgObj (PyVal.str s) := by
        cases x with
        | pgObj i =>
            cases i with
            | str s => exact ⟨s, rfl⟩
            | none => simp at h
            | bool b => simp at h
            | int n => simp at h
            | float lit => simp at h
            | list xs => simp at h
            | dict xs => simp at h
            | pgObj j => simp at h
        | none => simp at h
        | bool b => simp at h
        | int n => simp at h
        | float lit => simp at h
        | str s => simp at h
        | list ys => simp at h
        | dict ys => simp at h
      refine ⟨PyVal.dict [("id", PyVal.str s)] :: ds, ?_, ?_⟩
      · have hds' : pgMapToDict xs = .ok ds := hds
        rw [show pgToDictList (PyVal.list (PyVal.pgObj (PyVal.str s) :: xs))
            = (pgMapToDict xs >>= fun ds' =>
                pure (PyVal.dict [("id", PyVal.str s)] :: ds')) from rfl,
          hds']
        rfl
      · rw [show wfSerList (PyVal.dict [("id", PyVal.str s)] :: ds)
            = (wfSer (PyVal.dict [("id", PyVal.str s)]) && wfSerList ds) from rfl,
          hwf]
        rfl

/-- Helper: `asdict` on a list value converts elementwise. -/
theorem asdictVal_list (xs : List PyVal) :
    asdictVal (PyVal.list xs) = PyVal.list (asdictValList xs) := rfl

/-- Helper: `asdict` leaves a list of strings unchanged. -/
theorem asdictValList_strs (xs : List PyVal) (h : xs.all isStrVal = true) :
    asdictValList xs = xs := by
  induction xs with
  | nil => rfl
  | cons x xs ih =>
      rw [List.all_cons, Bool.and_eq_true] at h
      obtain ⟨s, rfl⟩ := isStrVal_ex h.1
      rw [show asdictValList (PyVal.str s :: xs)
          = asdictVal (PyVal.str s) :: asdictValList xs from rfl, ih h.2]
      rfl

/-- C4 (counterexample): constructing an alert with `pagegroups=[5]` is
possible (the dataclass does not enforce types), but then `to_json` raises
`AttributeError` (`5` has no `to_dict`), so `from_json(to_json(x))` produces
no record at all. -/
theorem C4_counterexample :
    ((alertInit [("pagegroups", PyVal.list [PyVal.int 5])]).bind to_json)
      = .error (.attributeError "no attribute to_dict") := rfl

/-- C4 (amended): for every constructed record whose fields are well typed
for the wire format (strings and ints per the annotations, finite-decimal
floats, `pagegroups` a list of `PageGroup` objects with string ids,
`response_vocabulary` and `units` lists of strings),
`from_json(to_json(x))` yields a record whose `id` and `timestamp` equal
`x`'s exactly. -/
theorem C4_roundtrip_id_timestamp (a : Active911Alert)
    (h : wellTypedAlert a = true) :
    ((to_json a).bind from_json).map (fun r => (r.id, r.timestamp))
      = .ok (a.id, a.timestamp) := by
  obtain ⟨f1, f2, f3, f4, f5, f6, f7, f8, f9, f10, f11, f12, f13, f14, f15,
    f16, f17, f18, f19, f20, f21, f22⟩ := a
  rw [wellTypedAlert] at h
  simp only [Bool.and_eq_true] at h
  obtain ⟨h, h22⟩ := h
  obtain ⟨h, h21⟩ := h
  obtain ⟨h, h20⟩ := h
  obtain ⟨h, h19⟩ := h
  obtain ⟨h, h18⟩ := h
  obtain ⟨h, h17⟩ := h
  obtain ⟨h, h16⟩ := h
  obtain ⟨h, h15⟩ := h
  obtain ⟨h, h14⟩ := h
  obtain ⟨h, h13⟩ := h
  obtain ⟨h, h12⟩ := h
  obtain ⟨h, h11⟩ := h
  obtain ⟨h, h10⟩ := h
  obtain ⟨h, h9⟩ := h
  obtain ⟨h, h8⟩ := h
  obtain ⟨h, h7⟩ := h
  obtain ⟨h, h6⟩ := h
  obtain ⟨h, h5⟩ := h
  obtain ⟨h, h4⟩ := h
  obtain ⟨h, h3⟩ := h
  obtain ⟨h1, h2⟩ := h
  obtain ⟨s1, rfl⟩ := isStrVal_ex h1
  obtain ⟨n1, rfl⟩ := isIntVal_ex h2
  obtain ⟨n2, rfl⟩ := isIntVal_ex h3
  obtain ⟨s2, rfl⟩ := isStrVal_ex h4
  obtain ⟨s3, rfl⟩ := isStrVal_ex h5
  obtain ⟨s4, rfl⟩ := isStrVal_ex h6
  obtain ⟨s5, rfl⟩ := isStrVal_ex h7
  obtain ⟨s6, rfl⟩ := isStrVal_ex h8
  obtain ⟨s7, rfl⟩ := isStrVal_ex h9
  obtain ⟨nid, rfl⟩ := isIntVal_ex h10
  obtain ⟨lit1, rfl, hl1⟩ := isWfFloat_ex h11
  obtain ⟨lit2, rfl, hl2⟩ := isWfFloat_ex h12
  obtain ⟨s8, rfl⟩ := isStrVal_ex h13
  obtain ⟨pgl, rfl, hpg⟩ := isPgList_ex h14
  obtain ⟨s9, rfl⟩ := isStrVal_ex h15
  obtain ⟨s10, rfl⟩ := isStrVal_ex h16
  obtain ⟨rvl, rfl, hrv⟩ := isStrList_ex h17
  obtain ⟨s11, rfl⟩ := isStrVal_ex h18
  obtain ⟨s12, rfl⟩ := isStrVal_ex h19
  obtain ⟨nts, rfl⟩ := isIntVal_ex h20
  obtain ⟨s13, rfl⟩ := isStrVal_ex h21
  obtain ⟨ul, rfl, hul⟩ := isStrList_ex h22
  obtain ⟨ds, hds, hwfds⟩ := pgToDictList_ok pgl hpg
  have hdumprv : jsonDumps (PyVal.list rvl) = .ok ⟨dumpVal (PyVal.list rvl)⟩ :=
    jsonDumps_wf _ (strList_wf rvl hrv)
  have hwul : wfSerList ul = true := strList_wf ul hul
  have htd : to_dict
      ⟨PyVal.str s1, PyVal.int n1, PyVal.int n2, PyVal.str s2, PyVal.str s3,
       PyVal.str s4, PyVal.str s5, PyVal.str s6, PyVal.str s7, PyVal.int nid,
       PyVal.float lit1, PyVal.float lit2, PyVal.str s8, PyVal.list pgl,
       PyVal.str s9, PyVal.str s10, PyVal.list rvl, PyVal.str s11,
       PyVal.str s12, PyVal.int nts, PyVal.str s13, PyVal.list ul⟩
      = Except.ok
      [("address", PyVal.str s1), ("age", PyVal.int n1),
       ("agency_id", PyVal.int n2), ("agency_name", PyVal.str s2),
       ("cad_code", PyVal.str s3), ("city", PyVal.str s4),
       ("cross_street", PyVal.str s5), ("description", PyVal.str s6),
       ("details", PyVal.str s7), ("id", PyVal.int nid),
       ("lat", PyVal.float lit1), ("lon", PyVal.float lit2),
       ("map_code", PyVal.str s8), ("pagegroups", PyVal.list ds),
       ("place", PyVal.str s9), ("priority", PyVal.str s10),
       ("response_vocabulary", PyVal.str ⟨dumpVal (PyVal.list rvl)⟩),
       ("source", PyVal.str s11), ("state", PyVal.str s12),
       ("timestamp", PyVal.int nts), ("unit", PyVal.str s13),
       ("units", PyVal.list ul)] := by
    rw [to_dict.eq_def]
    simp only [alertAsdict, asdictVal_list, asdictValList_strs ul hul]
    rw [show pgToDictList (PyVal.list pgl) = Except.ok ds from hds,
      show jsonDumps (PyVal.list rvl)
        = Except.ok (⟨dumpVal (PyVal.list rvl)⟩ : String) from hdumprv]
    rfl
  have hwfD : wfSer (PyVal.dict
      [("address", PyVal.str s1), ("age", PyVal.int n1),
       ("agency_id", PyVal.int n2), ("agency_name", PyVal.str s2),
       ("cad_code", PyVal.str s3), ("city", PyVal.str s4),
       ("cross_street", PyVal.str s5), ("description", PyVal.str s6),
       ("details", PyVal.str s7), ("id", PyVal.int nid),
       ("lat", PyVal.float lit1), ("lon", PyVal.float lit2),
       ("map_code", PyVal.str s8), ("pagegroups", PyVal.list ds),
       ("place", PyVal.str s9), ("priority", PyVal.str s10),
       ("response_vocabulary", PyVal.str ⟨dumpVal (PyVal.list rvl)⟩),
       ("source", PyVal.str s11), ("state", PyVal.str s12),
       ("timestamp", PyVal.int nts), ("unit", PyVal.str s13),
       ("units", PyVal.list ul)]) = true := by
    simp only [wfSer, wfSerDict, hl1, hl2, isFloatLit, Bool.true_and,
      Bool.and_true]
    rw [show wfSerList ds = true from hwfds, show wfSerList ul = true from hwul,
      show isFloatLitChars lit1.data = true from by
        have := hl1; rwa [isFloatLit] at this,
      show isFloatLitChars lit2.data = true from by
        have := hl2; rwa [isFloatLit] at this]
    rfl
  rw [to_json.eq_def, htd, exceptBind_ok, jsonDumps_wf _ hwfD,
    show (Except.ok (⟨dumpVal (PyVal.dict
      [("address", PyVal.str s1), ("age", PyVal.int n1),
       ("agency_id", PyVal.int n2), ("agency_name", PyVal.str s2),
       ("cad_code", PyVal.str s3), ("city", PyVal.str s4),
       ("cross_street", PyVal.str s5), ("description", PyVal.str s6),
       ("details", PyVal.str s7), ("id", PyVal.int nid),
       ("lat", PyVal.float lit1), ("lon", PyVal.float lit2),
       ("map_code", PyVal.str s8), ("pagegroups", PyVal.list ds),
       ("place", PyVal.str s9), ("priority", PyVal.str s10),
       ("response_vocabulary", PyVal.str ⟨dumpVal (PyVal.list rvl)⟩),
       ("source", PyVal.str s11), ("state", PyVal.str s12),
       ("timestamp", PyVal.int nts), ("unit", PyVal.str s13),
       ("units", PyVal.list ul)])⟩ : String)).bind from_json
    = from_json ⟨dumpVal (PyVal.dict
      [("address", PyVal.str s1), ("age", PyVal.int n1),
       ("agency_id", PyVal.int n2), ("agency_name", PyVal.str s2),
       ("cad_code", PyVal.str s3), ("city", PyVal.str s4),
       ("cross_street", PyVal.str s5), ("description", PyVal.str s6),
       ("details", PyVal.str s7), ("id", PyVal.int nid),
       ("lat", PyVal.float lit1), ("lon", PyVal.float lit2),
       ("map_code", PyVal.str s8), ("pagegroups", PyVal.list ds),
       ("place", PyVal.str s9), ("priority", PyVal.str s10),
       ("response_vocabulary", PyVal.str ⟨dumpVal (PyVal.list rvl)⟩),
       ("source", PyVal.str s11), ("state", PyVal.str s12),
       ("timestamp", PyVal.int nts), ("unit", PyVal.str s13),
       ("units", PyVal.list ul)])⟩ from rfl,
    from_json, jsonLoads_dump _ hwfD]
  rfl

/-- C4 (witness): the amended round trip at a concrete well-typed record. -/
theorem C4_witness :
    wellTypedAlert sampleAlert = true ∧
    ((to_json sampleAlert).bind from_json).map (fun r => (r.id, r.timestamp))
      = .ok (sampleAlert.id, sampleAlert.timestamp) :=
  ⟨rfl, C4_roundtrip_id_timestamp sampleAlert rfl⟩
